import Mathlib

/-!
Shallow embedding of the nmstate NetworkManager apply orchestrator
(src/rust/src/lib/nm/query_apply/apply.rs) together with models of the
external collaborators it calls, taken from the specification where their
code is not part of this repository snapshot.

The backend (NetworkManager) is modelled as a pure state `NmApiState`;
every backend call is recorded as an `NmEvent` in a trace, and every
embedded operation returns the trace of the calls it issued.
-/

set_option maxHeartbeats 1000000

/-- Modelled from the spec (section 7 error taxonomy): the domain error type.
`transport` is a backend/D-Bus style failure, `notRepresentable` is the
modeling-limitation error of per-interface DNS storage, `invalidArgument`
covers the remaining kinds (e.g. unsupported interface type). -/
inductive NmstateError where
  | transport (msg : String)
  | notRepresentable (msg : String)
  | invalidArgument (msg : String)
  deriving DecidableEq, Repr

/-- Abstract interface types, as in the crate's `InterfaceType` enum.
`unknown` is the unspecified type; `unsupported` stands for the types the
backend name mapping rejects. -/
inductive InterfaceType where
  | unknown
  | ethernet
  | bond
  | linuxBridge
  | ovsBridge
  | ovsInterface
  | veth
  | vlan
  | vxlan
  | vrf
  | dummy
  | unsupported (s : String)
  deriving DecidableEq, Repr

/-- A NetworkManager connection profile (`NmConnection`).  Besides the
identity fields read by apply.rs (`uuid`, `iface_name`, `iface_type`,
`controller`, `controller_type`), the six fields below carry the six
property categories compared by the pre-deactivation checks, and `other`
stands for every property none of those checks looks at. -/
structure NmConnection where
  uuid : Option String
  iface_name : Option String
  iface_type : Option String
  controller : Option String
  controller_type : Option String
  routes : List String
  vrf_table_id : Option Nat
  vlan : Option String
  vxlan : Option String
  veth_peer : Option String
  mptcp_flags : Option String
  other : String
  deriving DecidableEq, Repr

/-- A NetworkManager active connection: a live binding identified by the
uuid of the profile it instantiates. -/
structure NmActiveConnection where
  uuid : String
  deriving DecidableEq, Repr

/-- A NetworkManager device: the backend's live view of a kernel
interface, keyed by (name, backend-native type) with an abstract object
path used for direct deletion. -/
structure NmDevice where
  name : String
  nm_iface_type : String
  obj_path : String
  deriving DecidableEq, Repr

/-- The resolved (merged) value of one interface, with the predicates
apply.rs reads from it. -/
structure MergedIface where
  name : String
  iface_type : InterfaceType
  is_absent : Bool
  is_down : Bool
  is_virtual : Bool
  deriving DecidableEq, Repr

/-- One entry of the merged interfaces collection: the changed flag plus
the merged interface value. -/
structure MergedIfaceEntry where
  is_changed : Bool
  merged : MergedIface
  deriving DecidableEq, Repr

/-- The merged interfaces collection.  `all` is what `.iter()` yields;
`kernel_ifaces` is the kernel-interface subset iterated by the residual
virtual-interface sweep. -/
structure MergedInterfaces where
  all : List MergedIfaceEntry
  kernel_ifaces : List MergedIfaceEntry
  deriving DecidableEq, Repr

/-- The merged DNS state: the changed flag plus the desired server and
search-domain lists. -/
structure MergedDns where
  is_changed : Bool
  servers : List String
  searches : List String
  deriving DecidableEq, Repr

/-- The merged network state as read by apply.rs.
`hostname_desired_config` stands for
`hostname.desired.as_ref().and_then(|c| c.config.as_ref())`. -/
structure MergedNetworkState where
  memory_only : Bool
  hostname_desired_config : Option String
  dns : MergedDns
  interfaces : MergedInterfaces
  deriving DecidableEq, Repr

/-- The pure model of the NetworkManager backend reached through `NmApi`.
`failing_devices` lists object paths whose direct device deletion fails,
so that the error-tolerance of the residual sweep can be stated. -/
structure NmApiState where
  connections : List NmConnection
  active_conns : List NmActiveConnection
  devices : List NmDevice
  failing_devices : List String
  mptcp_supported : Bool
  hostname : Option String
  global_dns : Option (List String × List String)
  deriving DecidableEq, Repr

/-- One backend (or collaborator) call issued by the apply sequence. -/
inductive NmEvent where
  | setCheckpoint (cp : String) (timeout : Nat)
  | setCheckpointAutoRefresh (b : Bool)
  | hostnameSet (h : String)
  | connectionsGet
  | activeConnectionsGet
  | devicesGet
  | connectionDelete (uuid : String)
  | deviceDelete (objPath : String)
  | purgeGlobalDns
  | storeDnsToIface
  | storeGlobalDns (servers : List String) (searches : List String)
  | deactivate (c : NmConnection)
  | save (c : NmConnection) (memOnly : Bool)
  | activate (c : NmConnection)
  deriving DecidableEq, Repr

/-- The three profile sets returned by the profile-preparation
collaborator (`PerparedNmConnections`, spelled as in the source). -/
structure PerparedNmConnections where
  to_store : List NmConnection
  to_activate : List NmConnection
  to_deactivate : List NmConnection
  deriving DecidableEq, Repr

/-- Modelled from the spec (section 6): the collaborators apply.rs calls
into whose code is outside this snapshot.  Route/route-rule resolution
and per-interface DNS storage mutate the merged state and may fail; the
DNS collaborator returns the mutated state together with an optional
error (a `&mut` parameter may be partially mutated even on failure).
`perpare_nm_conns` is the profile-preparation pure function. -/
structure Collab where
  store_route_config : MergedNetworkState → Except NmstateError MergedNetworkState
  store_route_rule_config : MergedNetworkState → Except NmstateError MergedNetworkState
  store_dns_config_to_iface : MergedNetworkState → MergedNetworkState × Option NmstateError
  cur_dns_ifaces_still_valid_for_dns : MergedInterfaces → Bool
  perpare_nm_conns : MergedNetworkState → List NmConnection → List NmActiveConnection →
      Bool → Bool → Except NmstateError PerparedNmConnections

/-- The backend-native setting name of an OVS port profile. -/
def NM_SETTING_OVS_PORT_SETTING_NAME : String := "ovs-port"

/-- Modelled from the spec: `iface_type_to_nm` — the mapping from the
abstract interface type to the backend-native type name; it fails for
unsupported (and unspecified) types. -/
def iface_type_to_nm : InterfaceType → Except NmstateError String
  | .ethernet => .ok "802-3-ethernet"
  | .bond => .ok "bond"
  | .linuxBridge => .ok "bridge"
  | .ovsBridge => .ok "ovs-bridge"
  | .ovsInterface => .ok "ovs-interface"
  | .veth => .ok "veth"
  | .vlan => .ok "vlan"
  | .vxlan => .ok "vxlan"
  | .vrf => .ok "vrf"
  | .dummy => .ok "dummy"
  | .unknown => .error (.invalidArgument "Unsupported interface type: unknown")
  | .unsupported s => .error (.invalidArgument s)

/-- Modelled from the spec: `is_route_removed` — a route present on the
currently active profile is absent from the target profile. -/
def is_route_removed (target cur : NmConnection) : Bool :=
  cur.routes.any (fun r => !(target.routes.contains r))

/-- Modelled from the spec: `is_vrf_table_id_changed` — the VRF table id
differs between target and current profile. -/
def is_vrf_table_id_changed (target cur : NmConnection) : Bool :=
  target.vrf_table_id != cur.vrf_table_id

/-- Modelled from the spec: `is_vlan_changed` — the VLAN-specific
settings differ. -/
def is_vlan_changed (target cur : NmConnection) : Bool :=
  target.vlan != cur.vlan

/-- Modelled from the spec: `is_vxlan_changed` — the VXLAN-specific
settings differ. -/
def is_vxlan_changed (target cur : NmConnection) : Bool :=
  target.vxlan != cur.vxlan

/-- Modelled from the spec: `is_veth_peer_changed` — the veth pair's peer
reference differs. -/
def is_veth_peer_changed (target cur : NmConnection) : Bool :=
  target.veth_peer != cur.veth_peer

/-- Modelled from the spec: `is_mptcp_flags_changed` — the multi-path-TCP
flags differ. -/
def is_mptcp_flags_changed (target cur : NmConnection) : Bool :=
  target.mptcp_flags != cur.mptcp_flags

/-- The disjunction of the six backend-quirk checks, exactly as the `if`
condition of `gen_nm_conn_need_to_deactivate_first` in apply.rs. -/
def nm_conn_need_to_deactivate (target cur : NmConnection) : Bool :=
  is_route_removed target cur
    || is_vrf_table_id_changed target cur
    || is_vlan_changed target cur
    || is_vxlan_changed target cur
    || is_veth_peer_changed target cur
    || is_mptcp_flags_changed target cur

/-- The two profiles agree on all six property categories inspected by
the pre-deactivation checks (they may differ anywhere else). -/
def sameSixCategories (a b : NmConnection) : Prop :=
  a.routes = b.routes ∧ a.vrf_table_id = b.vrf_table_id ∧ a.vlan = b.vlan
    ∧ a.vxlan = b.vxlan ∧ a.veth_peer = b.veth_peer ∧ a.mptcp_flags = b.mptcp_flags

/-- The `activated_nm_conns.iter().find(...)` lookup of apply.rs: the
first activated profile whose uuid equals `u`. -/
def find_activated (activated : List NmConnection) (u : String) : Option NmConnection :=
  activated.find? (fun c =>
    match c.uuid with
    | some cu => cu == u
    | none => false)

/-- One loop iteration of `gen_nm_conn_need_to_deactivate_first`. -/
def deactivate_first_step (activated : List NmConnection)
    (ret : List NmConnection) (c : NmConnection) : List NmConnection :=
  match c.uuid with
  | none => ret
  | some u =>
    match find_activated activated u with
    | none => ret
    | some cur => if nm_conn_need_to_deactivate c cur then ret ++ [cur] else ret

/-- `gen_nm_conn_need_to_deactivate_first` from apply.rs: for every
profile to activate that is currently active under the same uuid and for
which one of the six checks holds, the currently active profile is
collected. -/
def gen_nm_conn_need_to_deactivate_first (nm_conns_to_activate : List NmConnection)
    (activated_nm_conns : List NmConnection) : List NmConnection :=
  nm_conns_to_activate.foldl (deactivate_first_step activated_nm_conns) []

/-- The backend's `connection_delete(uuid)`: removes every profile whose
uuid equals the given one, and records the call. -/
def connection_delete (st : NmApiState) (u : String) : NmApiState × NmEvent :=
  ({st with connections := st.connections.filter (fun c => !(c.uuid == some u))},
   NmEvent.connectionDelete u)

/-- Sequential deletion of a list of uuids, as the `for uuid in
&uuids_to_delete` loops of apply.rs. -/
def delete_conns : NmApiState → List String → NmApiState × List NmEvent
  | st, [] => (st, [])
  | st, u :: rest =>
    let p := connection_delete st u
    let q := delete_conns p.1 rest
    (q.1, p.2 :: q.2)

/-- The backend's `device_delete(obj_path)`: removes the device unless
its object path is in the failing set, in which case the call fails.  The
Bool result is the success flag. -/
def device_delete (st : NmApiState) (objPath : String) : NmApiState × NmEvent × Bool :=
  if st.failing_devices.contains objPath then
    (st, NmEvent.deviceDelete objPath, false)
  else
    ({st with devices := st.devices.filter (fun d => !(d.obj_path == objPath))},
     NmEvent.deviceDelete objPath, true)

/-- Modelled from the spec: `create_index_for_nm_conns_by_name_type` — a
lookup keyed by (interface name, backend-native type) built from a fresh
profile query; a key no profile matches has no entry. -/
def nm_conns_name_type_index_get (all : List NmConnection)
    (name : String) (nmType : String) : Option (List NmConnection) :=
  if (all.filter (fun c =>
      c.iface_name == some name && c.iface_type == some nmType)).isEmpty then
    none
  else
    some (all.filter (fun c =>
      c.iface_name == some name && c.iface_type == some nmType))

/-- The per-interface profile selection of `delete_ifaces` in apply.rs:
an interface of unknown type selects every profile with its name; any
other type selects the index entry of (name, mapped type). -/
def select_conns_for_absent_iface (all : List NmConnection)
    (iface : MergedIface) : Except NmstateError (Option (List NmConnection)) :=
  if iface.iface_type = InterfaceType.unknown then
    .ok (some (all.filter (fun c => c.iface_name == some iface.name)))
  else
    match iface_type_to_nm iface.iface_type with
    | .error e => .error e
    | .ok nmType => .ok (nm_conns_name_type_index_get all iface.name nmType)

/-- `HashSet::insert` on the ordered list model of `uuids_to_delete`:
adds the uuid unless already present. -/
def add_uuid (acc : List String) (u : String) : List String :=
  if acc.contains u then acc else acc ++ [u]

/-- The second half of the inner loop body of `delete_ifaces`: when the
profile's controller is of the OVS-port kind, its controller uuid is also
marked for deletion. -/
def collect_controller (acc1 : List String) (c : NmConnection) : List String :=
  if c.controller_type == some NM_SETTING_OVS_PORT_SETTING_NAME then
    match c.controller with
    | some cu => add_uuid acc1 cu
    | none => acc1
  else
    acc1

/-- The inner loop body of `delete_ifaces`: collect the profile's own
uuid, and additionally its controller's uuid when the controller is of
the OVS-port kind. -/
def collect_conn (acc : List String) (c : NmConnection) : List String :=
  collect_controller
    (match c.uuid with
     | some u => add_uuid acc u
     | none => acc) c

/-- The outer loop body of `delete_ifaces` for one interface entry:
changed and merged-absent interfaces contribute the uuids collected from
their selected profiles. -/
def collect_iface (all : List NmConnection) (acc : List String)
    (e : MergedIfaceEntry) : Except NmstateError (List String) :=
  if e.is_changed && e.merged.is_absent then
    match select_conns_for_absent_iface all e.merged with
    | .error err => .error err
    | .ok none => .ok acc
    | .ok (some conns) => .ok (conns.foldl collect_conn acc)
  else
    .ok acc

/-- The error-propagating fold step over interface entries used by
`delete_ifaces_uuids`. -/
def collect_step (all : List NmConnection)
    (r : Except NmstateError (List String)) (e : MergedIfaceEntry) :
    Except NmstateError (List String) :=
  match r with
  | .error err => .error err
  | .ok acc => collect_iface all acc e

/-- The full `uuids_to_delete` computation of `delete_ifaces` over all
merged interface entries. -/
def delete_ifaces_uuids (all : List NmConnection)
    (m : MergedNetworkState) : Except NmstateError (List String) :=
  m.interfaces.all.foldl (collect_step all) (.ok [])

/-- The loop-body selection of `delete_orphan_ports` in apply.rs: the
uuids of the OVS-port profiles whose controller uuid was just deleted. -/
def orphan_uuids (all : List NmConnection) (uuids_deleted : List String) : List String :=
  all.filterMap (fun c =>
    if c.iface_type == some NM_SETTING_OVS_PORT_SETTING_NAME then
      match c.controller with
      | some ctrl => if uuids_deleted.contains ctrl then c.uuid else none
      | none => none
    else none)

/-- `delete_orphan_ports` from apply.rs: re-fetch all profiles and delete
every OVS-port profile still referring to a just-deleted controller uuid. -/
def delete_orphan_ports (st : NmApiState) (uuids_deleted : List String) :
    List NmEvent × NmApiState :=
  let us := orphan_uuids st.connections uuids_deleted
  let p := delete_conns st us
  (NmEvent.connectionsGet :: p.2, p.1)

/-- Modelled from the spec: `create_index_for_nm_devs` — device lookup by
(name, backend-native type) over a fresh device query. -/
def nm_devs_index_get (devs : List NmDevice) (name : String) (nmType : String) :
    Option NmDevice :=
  devs.find? (fun d => d.name == name && d.nm_iface_type == nmType)

/-- The loop of `delete_remain_virtual_interface_as_desired`: for every
remaining interface, attempt a direct device deletion; a failed deletion
is swallowed (logged only) and the loop continues. -/
def delete_remain_loop (devs : List NmDevice) :
    List MergedIface → NmApiState → List NmEvent × Except NmstateError NmApiState
  | [], st => ([], .ok st)
  | i :: rest, st =>
    if i.is_virtual then
      match iface_type_to_nm i.iface_type with
      | .error e => ([], .error e)
      | .ok nmType =>
        match nm_devs_index_get devs i.name nmType with
        | some dev =>
          let p := device_delete st dev.obj_path
          let q := delete_remain_loop devs rest p.1
          (p.2.1 :: q.1, q.2)
        | none => delete_remain_loop devs rest st
    else
      delete_remain_loop devs rest st

/-- `delete_remain_virtual_interface_as_desired` from apply.rs: direct
device deletion for every changed, absent-or-down, virtual kernel
interface the backend still reports. -/
def delete_remain_virtual_interface_as_desired (st : NmApiState)
    (m : MergedNetworkState) : List NmEvent × Except NmstateError NmApiState :=
  let ifaces :=
    (m.interfaces.kernel_ifaces.filter
      (fun e => e.is_changed && (e.merged.is_absent || e.merged.is_down))).map
      MergedIfaceEntry.merged
  let p := delete_remain_loop st.devices ifaces st
  (NmEvent.devicesGet :: p.1, p.2)

/-- `delete_ifaces` from apply.rs: collect the uuids of every profile of
a changed, merged-absent interface (plus OVS-port controllers), delete
them, then run the orphan sweep and the residual virtual-interface
sweep. -/
def delete_ifaces (st : NmApiState) (m : MergedNetworkState) :
    List NmEvent × Except NmstateError NmApiState :=
  match delete_ifaces_uuids st.connections m with
  | .error e => ([NmEvent.connectionsGet], .error e)
  | .ok us =>
    let p := delete_conns st us
    let q := delete_orphan_ports p.1 us
    let r := delete_remain_virtual_interface_as_desired q.2 m
    (NmEvent.connectionsGet :: (p.2 ++ q.1 ++ r.1), r.2)

/-- The backend's `hostname_set`. -/
def hostname_set (st : NmApiState) (h : String) : List NmEvent × NmApiState :=
  ([NmEvent.hostnameSet h], {st with hostname := some h})

/-- Modelled from the spec: `purge_global_dns_config` — clears the
backend's global DNS configuration. -/
def purge_global_dns_config (st : NmApiState) : NmApiState :=
  {st with global_dns := none}

/-- Modelled from the spec: `store_dns_config_via_global_api` — stores
the given server and search-domain lists through the global DNS API. -/
def store_dns_config_via_global_api (st : NmApiState)
    (servers searches : List String) : NmApiState :=
  {st with global_dns := some (servers, searches)}

/-- Modelled from the spec: `deactivate_nm_profiles` — one deactivation
call per given profile; the matching active connections disappear. -/
def deactivate_nm_profiles (st : NmApiState) (conns : List NmConnection) :
    List NmEvent × NmApiState :=
  (conns.map NmEvent.deactivate,
   {st with active_conns :=
      st.active_conns.filter (fun ac => !(conns.any (fun c => c.uuid == some ac.uuid)))})

/-- Insert-or-replace of one profile into the backend's profile list,
keyed by uuid. -/
def upsert_conn (l : List NmConnection) (c : NmConnection) : List NmConnection :=
  match c.uuid with
  | some _ =>
    if l.any (fun x => x.uuid == c.uuid) then
      l.map (fun x => if x.uuid == c.uuid then c else x)
    else
      l ++ [c]
  | none => l ++ [c]

/-- Modelled from the spec: `save_nm_profiles` — one save call per
profile, non-persistent when in memory-only mode. -/
def save_nm_profiles (st : NmApiState) (conns : List NmConnection)
    (memOnly : Bool) : List NmEvent × NmApiState :=
  (conns.map (fun c => NmEvent.save c memOnly),
   {st with connections := conns.foldl upsert_conn st.connections})

/-- Modelled from the spec: `delete_exist_profiles` — stale-profile
removal: deletes every existing profile not present in the to-store
set. -/
def delete_exist_profiles (st : NmApiState)
    (exist toStore : List NmConnection) : List NmEvent × NmApiState :=
  let storeUuids := toStore.filterMap NmConnection.uuid
  let us := exist.filterMap (fun c =>
    match c.uuid with
    | some u => if storeUuids.contains u then none else some u
    | none => none)
  let p := delete_conns st us
  (p.2, p.1)

/-- Modelled from the spec: `delete_orphan_ovs_ports` — orphan-port
cleanup scoped to the activation set: deletes every existing OVS-port
profile that no profile being activated names as its controller.  Only
profile-deletion calls are issued. -/
def delete_orphan_ovs_ports (st : NmApiState) (_ifaces : MergedInterfaces)
    (exist toActivate : List NmConnection) : List NmEvent × NmApiState :=
  let us := exist.filterMap (fun c =>
    match c.uuid with
    | some u =>
      if c.iface_type == some NM_SETTING_OVS_PORT_SETTING_NAME
          && !(toActivate.any (fun a => a.controller == some u)) then
        some u
      else none
    | none => none)
  let p := delete_conns st us
  (p.2, p.1)

/-- Modelled from the spec: `activate_nm_profiles` — one activation call
per profile to activate; each such profile gains an active connection. -/
def activate_nm_profiles (st : NmApiState) (conns : List NmConnection)
    (_nm_acs : List NmActiveConnection) : List NmEvent × NmApiState :=
  (conns.map NmEvent.activate,
   {st with active_conns :=
      st.active_conns ++ (conns.filterMap NmConnection.uuid).map NmActiveConnection.mk})

/-- The hostname step of `nm_apply`: push the desired hostname unless in
memory-only mode (where it is skipped with a diagnostic only). -/
def apply_phase_hostname (st : NmApiState) (m : MergedNetworkState) :
    List NmEvent × NmApiState :=
  match m.hostname_desired_config with
  | some h => if m.memory_only then ([], st) else hostname_set st h
  | none => ([], st)

/-- The DNS step of `nm_apply`: purge the global DNS configuration when
the DNS configuration changed or no configured interface remains valid
for interface-level DNS; then attempt per-interface DNS storage, falling
back to the global DNS API on any error of that collaborator.  Returns
the events, the backend state and the merged state to continue with. -/
def apply_phase_dns (collab : Collab) (st : NmApiState)
    (m : MergedNetworkState) : List NmEvent × NmApiState × MergedNetworkState :=
  let purged :=
    if m.dns.is_changed || !(collab.cur_dns_ifaces_still_valid_for_dns m.interfaces) then
      ([NmEvent.purgeGlobalDns], purge_global_dns_config st)
    else
      ([], st)
  match collab.store_dns_config_to_iface m with
  | (mC, none) => (purged.1 ++ [NmEvent.storeDnsToIface], purged.2, mC)
  | (mC, some _) =>
    (purged.1 ++ [NmEvent.storeDnsToIface,
        NmEvent.storeGlobalDns mC.dns.servers mC.dns.searches],
     store_dns_config_via_global_api purged.2 mC.dns.servers mC.dns.searches, mC)

/-- The first half of `nm_apply` (apply.rs lines 34-103): checkpoint,
deletion cascade, hostname, inventory fetch, route/route-rule resolution
and the DNS step.  On success it yields the backend state, the mutated
merged-state clone, the fetched profiles and active connections, and the
MPTCP capability flag. -/
def nm_apply_pre (collab : Collab) (st : NmApiState) (m : MergedNetworkState)
    (checkpoint : String) (timeout : Nat) :
    List NmEvent × Except NmstateError
      (NmApiState × MergedNetworkState × List NmConnection ×
        List NmActiveConnection × Bool) :=
  let t0 := [NmEvent.setCheckpoint checkpoint timeout,
             NmEvent.setCheckpointAutoRefresh true]
  match (if m.memory_only then ([], Except.ok st) else delete_ifaces st m) with
  | (t1, .error e) => (t0 ++ t1, .error e)
  | (t1, .ok st1) =>
    let hostnamed := apply_phase_hostname st1 m
    let t2 := hostnamed.1
    let st2 := hostnamed.2
    let tg := [NmEvent.connectionsGet, NmEvent.activeConnectionsGet]
    match collab.store_route_config m with
    | .error e => (t0 ++ t1 ++ t2 ++ tg, .error e)
    | .ok mA =>
      match collab.store_route_rule_config mA with
      | .error e => (t0 ++ t1 ++ t2 ++ tg, .error e)
      | .ok mB =>
        let dnsd := apply_phase_dns collab st2 mB
        (t0 ++ t1 ++ t2 ++ tg ++ dnsd.1,
         .ok (dnsd.2.1, dnsd.2.2, st2.connections, st2.active_conns,
           st2.mptcp_supported))

/-- The `activated_nm_conns` computation of `nm_apply` (apply.rs lines
105-116): the existing profiles whose uuid appears among the active
connections. -/
def activated_nm_conns_of (exist_nm_conns : List NmConnection)
    (nm_acs : List NmActiveConnection) : List NmConnection :=
  exist_nm_conns.filter (fun c =>
    match c.uuid with
    | some u => (nm_acs.map NmActiveConnection.uuid).contains u
    | none => false)

/-- The second half of `nm_apply` (apply.rs lines 105-153): the
pre-deactivation policy, profile persistence, stale/orphan removal
(unless memory-only), activation and the closing deactivations. -/
def nm_apply_post (st1 : NmApiState)
    (m1 : MergedNetworkState) (exist_nm_conns : List NmConnection)
    (nm_acs : List NmActiveConnection) (prepped : PerparedNmConnections) :
    List NmEvent × NmApiState :=
  let deactFirst := gen_nm_conn_need_to_deactivate_first prepped.to_activate
    (activated_nm_conns_of exist_nm_conns nm_acs)
  let d1 := deactivate_nm_profiles st1 deactFirst
  let sv := save_nm_profiles d1.2 prepped.to_store m1.memory_only
  let del :=
    if m1.memory_only then ([], sv.2)
    else
      let de := delete_exist_profiles sv.2 exist_nm_conns prepped.to_store
      let dp := delete_orphan_ovs_ports de.2 m1.interfaces exist_nm_conns
        prepped.to_activate
      (de.1 ++ dp.1, dp.2)
  let act := activate_nm_profiles del.2 prepped.to_activate nm_acs
  let d2 := deactivate_nm_profiles act.2 prepped.to_deactivate
  (d1.1 ++ sv.1 ++ del.1 ++ act.1 ++ d2.1, d2.2)

/-- `nm_apply` from apply.rs: the full apply sequence.  After the first
half, profiles are prepared, the pre-deactivation policy is applied, and
the second half runs. -/
def nm_apply (collab : Collab) (st : NmApiState) (m : MergedNetworkState)
    (checkpoint : String) (timeout : Nat) :
    List NmEvent × Except NmstateError NmApiState :=
  match nm_apply_pre collab st m checkpoint timeout with
  | (t1, .error e) => (t1, .error e)
  | (t1, .ok (st1, m1, exist_nm_conns, nm_acs, mptcp_supported)) =>
    match collab.perpare_nm_conns m1 exist_nm_conns nm_acs mptcp_supported false with
    | .error e => (t1, .error e)
    | .ok prepped =>
      let post := nm_apply_post st1 m1 exist_nm_conns nm_acs prepped
      (t1 ++ post.1, .ok post.2)

/-- True of the save, activate and deactivate events: the profile-level
operations that must come after the first half of the apply sequence. -/
def NmEvent.isProfileOp : NmEvent → Bool
  | .save _ _ => true
  | .activate _ => true
  | .deactivate _ => true
  | _ => false

/-- True of profile-deletion events. -/
def NmEvent.isConnectionDelete : NmEvent → Bool
  | .connectionDelete _ => true
  | _ => false

/-- True of save events. -/
def NmEvent.isSave : NmEvent → Bool
  | .save _ _ => true
  | _ => false

/-- True of activation events. -/
def NmEvent.isActivate : NmEvent → Bool
  | .activate _ => true
  | _ => false

/-- True of deactivation events. -/
def NmEvent.isDeactivate : NmEvent → Bool
  | .deactivate _ => true
  | _ => false

/-- True of global-DNS store events. -/
def NmEvent.isStoreGlobalDns : NmEvent → Bool
  | .storeGlobalDns _ _ => true
  | _ => false

/-- True of the per-interface DNS storage attempt marker. -/
def NmEvent.isStoreDnsToIface : NmEvent → Bool
  | .storeDnsToIface => true
  | _ => false

/-- True of the events a memory-only apply may issue: no profile
deletion, no device deletion, no hostname call, and saves only with the
non-persistent flag. -/
def NmEvent.memoryOnlySafe : NmEvent → Bool
  | .connectionDelete _ => false
  | .deviceDelete _ => false
  | .hostnameSet _ => false
  | .save _ b => b
  | _ => true

/-- The uuid argument of a profile-deletion event. -/
def NmEvent.deletedUuid : NmEvent → Option String
  | .connectionDelete u => some u
  | _ => none

/-- True of the events the deletion cascade can issue: inventory reads
and profile/device deletions. -/
def NmEvent.isPhase1 : NmEvent → Bool
  | .connectionsGet => true
  | .connectionDelete _ => true
  | .devicesGet => true
  | .deviceDelete _ => true
  | _ => false

/-! ## Concrete fixtures used by the witness theorems -/

/-- A profile with no differing category: the baseline fixture. -/
def wCand : NmConnection :=
  { uuid := some "uuid-1", iface_name := some "eth1", iface_type := some "vlan",
    controller := none, controller_type := none, routes := [],
    vrf_table_id := none, vlan := some "100", vxlan := none,
    veth_peer := none, mptcp_flags := none, other := "a" }

/-- The currently active form of `wCand` with a changed VLAN. -/
def wCur : NmConnection := { wCand with vlan := some "200", other := "b" }

/-- A profile agreeing with `wCand` on all six categories but differing
in an unrelated property. -/
def wSame : NmConnection := { wCand with other := "zz" }

/-- An OVS bridge profile fixture. -/
def wBridge : NmConnection :=
  { uuid := some "uuid-br", iface_name := some "br0",
    iface_type := some "ovs-bridge", controller := none,
    controller_type := none, routes := [], vrf_table_id := none,
    vlan := none, vxlan := none, veth_peer := none, mptcp_flags := none,
    other := "" }

/-- An OVS port profile controlled by `wBridge`. -/
def wPort : NmConnection :=
  { wBridge with
    uuid := some "uuid-port", iface_name := some "p0",
    iface_type := some "ovs-port", controller := some "uuid-br" }

/-- An OVS internal interface profile controlled by `wPort`. -/
def wOvsIface : NmConnection :=
  { wBridge with
    uuid := some "uuid-if", iface_name := some "i0",
    iface_type := some "ovs-interface", controller := some "uuid-port",
    controller_type := some "ovs-port" }

/-- A backend state holding the OVS bridge/port/interface triple. -/
def wState : NmApiState :=
  { connections := [wBridge, wPort, wOvsIface], active_conns := [],
    devices := [], failing_devices := [], mptcp_supported := true,
    hostname := none, global_dns := none }

/-- A changed entry declaring the OVS internal interface absent. -/
def wAbsentEntry : MergedIfaceEntry :=
  { is_changed := true,
    merged := { name := "i0", iface_type := .ovsInterface,
                is_absent := true, is_down := false, is_virtual := true } }

/-- A merged state declaring the OVS internal interface absent. -/
def wAbsent : MergedNetworkState :=
  { memory_only := false, hostname_desired_config := none,
    dns := { is_changed := false, servers := [], searches := [] },
    interfaces := { all := [wAbsentEntry], kernel_ifaces := [] } }

/-- An absent interface of unspecified type. -/
def wUnknownIface : MergedIface :=
  { name := "eth1", iface_type := .unknown, is_absent := true,
    is_down := false, is_virtual := false }

/-- Identity-like collaborators: route/route-rule/DNS resolution succeed
without mutating the merged state, and profile preparation returns the
`wCand` profile to store and activate. -/
def wCollab : Collab :=
  { store_route_config := fun m => .ok m,
    store_route_rule_config := fun m => .ok m,
    store_dns_config_to_iface := fun m => (m, none),
    cur_dns_ifaces_still_valid_for_dns := fun _ => true,
    perpare_nm_conns := fun _ _ _ _ _ =>
      .ok { to_store := [wCand], to_activate := [wCand], to_deactivate := [] } }

/-- Collaborators whose per-interface DNS storage fails with a transport
error (not the modeling-limitation error). -/
def wDnsFailCollab : Collab :=
  { wCollab with
    store_dns_config_to_iface := fun m => (m, some (.transport "dbus failure")) }

/-- A merged state in memory-only mode with one desired DNS server and a
desired hostname. -/
def wMemState : MergedNetworkState :=
  { memory_only := true, hostname_desired_config := some "host-a",
    dns := { is_changed := false, servers := ["8.8.8.8"], searches := ["x.example"] },
    interfaces := { all := [], kernel_ifaces := [] } }

/-- A profile without a uuid (e.g. an OVS port profile whose controller
matches a deleted uuid, but which cannot be deleted by uuid). -/
def wNoUuid : NmConnection :=
  { wPort with uuid := none, controller := some "uuid-br" }

/-! ## Helper lemmas -/

theorem mem_add_uuid_iff (acc : List String) (u x : String) :
    x ∈ add_uuid acc u ↔ x ∈ acc ∨ x = u := by
  unfold add_uuid
  split
  · next h =>
    constructor
    · exact Or.inl
    · rintro (hx | rfl)
      · exact hx
      · exact List.elem_iff.mp h
  · simp

theorem mem_add_uuid_self (acc : List String) (u : String) : u ∈ add_uuid acc u :=
  (mem_add_uuid_iff acc u u).mpr (Or.inr rfl)

theorem mem_add_uuid_of_mem {acc : List String} {x : String} (u : String)
    (h : x ∈ acc) : x ∈ add_uuid acc u :=
  (mem_add_uuid_iff acc u x).mpr (Or.inl h)

theorem add_uuid_nodup {acc : List String} (h : acc.Nodup) (u : String) :
    (add_uuid acc u).Nodup := by
  unfold add_uuid
  split
  · exact h
  · next hc =>
    have hu : u ∉ acc := fun hm => hc (List.elem_iff.mpr hm)
    simp [List.nodup_append, h, hu]

theorem mem_collect_controller_of_mem (c : NmConnection) {acc1 : List String}
    {x : String} (h : x ∈ acc1) : x ∈ collect_controller acc1 c := by
  unfold collect_controller
  split
  · cases c.controller
    · exact h
    · exact mem_add_uuid_of_mem _ h
  · exact h

theorem collect_controller_nodup (c : NmConnection) {acc1 : List String}
    (h : acc1.Nodup) : (collect_controller acc1 c).Nodup := by
  unfold collect_controller
  split
  · cases c.controller
    · exact h
    · exact add_uuid_nodup h _
  · exact h

theorem mem_collect_conn_of_mem (c : NmConnection) {acc : List String} {x : String}
    (h : x ∈ acc) : x ∈ collect_conn acc c := by
  unfold collect_conn
  apply mem_collect_controller_of_mem
  cases c.uuid
  · exact h
  · exact mem_add_uuid_of_mem _ h

theorem collect_conn_nodup (c : NmConnection) {acc : List String}
    (h : acc.Nodup) : (collect_conn acc c).Nodup := by
  unfold collect_conn
  apply collect_controller_nodup
  cases c.uuid
  · exact h
  · exact add_uuid_nodup h _

theorem mem_collect_conn_uuid (c : NmConnection) (acc : List String) {u : String}
    (h : c.uuid = some u) : u ∈ collect_conn acc c := by
  unfold collect_conn
  rw [h]
  exact mem_collect_controller_of_mem c (mem_add_uuid_self acc u)

theorem mem_collect_conn_controller (c : NmConnection) (acc : List String) {cu : String}
    (hct : c.controller_type = some NM_SETTING_OVS_PORT_SETTING_NAME)
    (hc : c.controller = some cu) : cu ∈ collect_conn acc c := by
  unfold collect_conn collect_controller
  have hcond : (c.controller_type == some NM_SETTING_OVS_PORT_SETTING_NAME) = true := by
    simp [hct]
  rw [if_pos hcond, hc]
  exact mem_add_uuid_self _ cu

theorem mem_foldl_collect_conn_of_mem (conns : List NmConnection)
    {acc : List String} {x : String} (h : x ∈ acc) :
    x ∈ conns.foldl collect_conn acc := by
  induction conns generalizing acc with
  | nil => exact h
  | cons c rest ih => exact ih (mem_collect_conn_of_mem c h)

theorem foldl_collect_conn_nodup (conns : List NmConnection) {acc : List String}
    (h : acc.Nodup) : (conns.foldl collect_conn acc).Nodup := by
  induction conns generalizing acc with
  | nil => exact h
  | cons c rest ih => exact ih (collect_conn_nodup c h)

theorem mem_foldl_collect_conn_of_conn (conns : List NmConnection)
    (acc : List String) {p : NmConnection} (hp : p ∈ conns) :
    (∀ u, p.uuid = some u → u ∈ conns.foldl collect_conn acc)
      ∧ (∀ cu, p.controller_type = some NM_SETTING_OVS_PORT_SETTING_NAME →
          p.controller = some cu → cu ∈ conns.foldl collect_conn acc) := by
  obtain ⟨s, t, rfl⟩ := List.append_of_mem hp
  rw [List.foldl_append, List.foldl_cons]
  constructor
  · intro u hu
    exact mem_foldl_collect_conn_of_mem t (mem_collect_conn_uuid p _ hu)
  · intro cu hct hc
    exact mem_foldl_collect_conn_of_mem t (mem_collect_conn_controller p _ hct hc)

theorem collect_iface_mono {all : List NmConnection} {acc : List String}
    {e : MergedIfaceEntry} {acc2 : List String}
    (h : collect_iface all acc e = .ok acc2) {x : String} (hx : x ∈ acc) :
    x ∈ acc2 := by
  unfold collect_iface at h
  split at h
  · split at h
    · exact absurd h (by simp)
    · cases h
      exact hx
    · cases h
      exact mem_foldl_collect_conn_of_mem _ hx
  · cases h
    exact hx

theorem collect_iface_nodup {all : List NmConnection} {acc : List String}
    {e : MergedIfaceEntry} {acc2 : List String}
    (h : collect_iface all acc e = .ok acc2) (hn : acc.Nodup) : acc2.Nodup := by
  unfold collect_iface at h
  split at h
  · split at h
    · exact absurd h (by simp)
    · cases h
      exact hn
    · cases h
      exact foldl_collect_conn_nodup _ hn
  · cases h
    exact hn

theorem foldl_collect_step_error (all : List NmConnection)
    (l : List MergedIfaceEntry) (err : NmstateError) :
    l.foldl (collect_step all) (.error err) = .error err := by
  induction l with
  | nil => rfl
  | cons e rest ih => rw [List.foldl_cons]; exact ih

theorem foldl_collect_step_mono (all : List NmConnection)
    (l : List MergedIfaceEntry) {acc us : List String}
    (h : l.foldl (collect_step all) (.ok acc) = .ok us) {x : String}
    (hx : x ∈ acc) : x ∈ us := by
  induction l generalizing acc with
  | nil =>
    cases h
    exact hx
  | cons e rest ih =>
    rw [List.foldl_cons] at h
    cases hce : collect_iface all acc e with
    | error err =>
      rw [show collect_step all (.ok acc) e = .error err from hce ▸ rfl] at h
      rw [foldl_collect_step_error] at h
      exact absurd h (by simp)
    | ok acc1 =>
      rw [show collect_step all (.ok acc) e = .ok acc1 from hce ▸ rfl] at h
      exact ih h (collect_iface_mono hce hx)

theorem foldl_collect_step_nodup (all : List NmConnection)
    (l : List MergedIfaceEntry) {acc us : List String}
    (h : l.foldl (collect_step all) (.ok acc) = .ok us) (hn : acc.Nodup) :
    us.Nodup := by
  induction l generalizing acc with
  | nil =>
    cases h
    exact hn
  | cons e rest ih =>
    rw [List.foldl_cons] at h
    cases hce : collect_iface all acc e with
    | error err =>
      rw [show collect_step all (.ok acc) e = .error err from hce ▸ rfl] at h
      rw [foldl_collect_step_error] at h
      exact absurd h (by simp)
    | ok acc1 =>
      rw [show collect_step all (.ok acc) e = .ok acc1 from hce ▸ rfl] at h
      exact ih h (collect_iface_nodup hce hn)

theorem delete_ifaces_uuids_nodup {all : List NmConnection}
    {m : MergedNetworkState} {us : List String}
    (h : delete_ifaces_uuids all m = .ok us) : us.Nodup := by
  unfold delete_ifaces_uuids at h
  exact foldl_collect_step_nodup all _ h List.nodup_nil

theorem delete_conns_trace (st : NmApiState) (us : List String) :
    (delete_conns st us).2 = us.map NmEvent.connectionDelete := by
  induction us generalizing st with
  | nil => rfl
  | cons u rest ih =>
    unfold delete_conns
    simp [ih, connection_delete]

theorem delete_conns_connections (st : NmApiState) (us : List String) :
    (delete_conns st us).1.connections
      = st.connections.filter (fun c => !(us.any (fun u => c.uuid == some u))) := by
  induction us generalizing st with
  | nil => simp [delete_conns]
  | cons u rest ih =>
    unfold delete_conns
    rw [ih]
    unfold connection_delete
    simp only [List.filter_filter, List.any_cons]
    apply List.filter_congr
    intro c _
    simp only [Bool.not_or, Bool.and_comm]

theorem deactivate_first_step_none (act : List NmConnection)
    (ret : List NmConnection) {c : NmConnection} (h : c.uuid = none) :
    deactivate_first_step act ret c = ret := by
  simp only [deactivate_first_step, h]

theorem deactivate_first_step_unmatched (act : List NmConnection)
    (ret : List NmConnection) {c : NmConnection} {u : String}
    (h : c.uuid = some u) (hf : find_activated act u = none) :
    deactivate_first_step act ret c = ret := by
  simp only [deactivate_first_step, h, hf]

theorem deactivate_first_step_matched (act : List NmConnection)
    (ret : List NmConnection) {c : NmConnection} {u : String}
    {cur : NmConnection} (h : c.uuid = some u)
    (hf : find_activated act u = some cur) :
    deactivate_first_step act ret c
      = if nm_conn_need_to_deactivate c cur then ret ++ [cur] else ret := by
  simp only [deactivate_first_step, h, hf]

theorem mem_deactivate_first_step_of_mem (act : List NmConnection)
    {ret : List NmConnection} {x : NmConnection} (c : NmConnection)
    (h : x ∈ ret) : x ∈ deactivate_first_step act ret c := by
  cases hu : c.uuid with
  | none => rw [deactivate_first_step_none act ret hu]; exact h
  | some u =>
    cases hf : find_activated act u with
    | none => rw [deactivate_first_step_unmatched act ret hu hf]; exact h
    | some cur =>
      rw [deactivate_first_step_matched act ret hu hf]
      split
      · exact List.mem_append.mpr (Or.inl h)
      · exact h

theorem mem_foldl_deactivate_first (act : List NmConnection)
    (l : List NmConnection) (init : List NmConnection) (x : NmConnection) :
    x ∈ l.foldl (deactivate_first_step act) init ↔
      x ∈ init ∨ ∃ c ∈ l, ∃ u, c.uuid = some u ∧ find_activated act u = some x
        ∧ nm_conn_need_to_deactivate c x = true := by
  induction l generalizing init with
  | nil => simp
  | cons c rest ih =>
    rw [List.foldl_cons, ih]
    constructor
    · rintro (hx | ⟨c2, hc2, hp⟩)
      · cases hu : c.uuid with
        | none =>
          rw [deactivate_first_step_none act init hu] at hx
          exact Or.inl hx
        | some u =>
          cases hf : find_activated act u with
          | none =>
            rw [deactivate_first_step_unmatched act init hu hf] at hx
            exact Or.inl hx
          | some cur =>
            rw [deactivate_first_step_matched act init hu hf] at hx
            by_cases hd : nm_conn_need_to_deactivate c cur = true
            · rw [if_pos hd] at hx
              rcases List.mem_append.mp hx with hl | hr
              · exact Or.inl hl
              · have hxe : x = cur := List.mem_singleton.mp hr
                subst hxe
                exact Or.inr ⟨c, List.mem_cons_self c rest, u, hu, hf, hd⟩
            · rw [if_neg hd] at hx
              exact Or.inl hx
      · exact Or.inr ⟨c2, List.mem_cons_of_mem c hc2, hp⟩
    · rintro (hx | ⟨c2, hc2, u, hu, hf, hd⟩)
      · exact Or.inl (mem_deactivate_first_step_of_mem act c hx)
      · rcases List.mem_cons.mp hc2 with rfl | hc2m
        · left
          rw [deactivate_first_step_matched act init hu hf, if_pos hd]
          exact List.mem_append.mpr (Or.inr (List.mem_singleton.mpr rfl))
        · exact Or.inr ⟨c2, hc2m, u, hu, hf, hd⟩

theorem mem_gen_deactivate_first_iff (toAct act : List NmConnection)
    (x : NmConnection) :
    x ∈ gen_nm_conn_need_to_deactivate_first toAct act ↔
      ∃ c ∈ toAct, ∃ u, c.uuid = some u ∧ find_activated act u = some x
        ∧ nm_conn_need_to_deactivate c x = true := by
  unfold gen_nm_conn_need_to_deactivate_first
  rw [mem_foldl_deactivate_first]
  simp

theorem find_activated_eq_some {act : List NmConnection} {u : String}
    {x : NmConnection} (h : find_activated act u = some x) :
    x ∈ act ∧ x.uuid = some u := by
  refine ⟨List.mem_of_find?_eq_some h, ?_⟩
  have hp := List.find?_some h
  cases hx : x.uuid with
  | none => rw [hx] at hp; simp at hp
  | some cu =>
    rw [hx] at hp
    simp only [beq_iff_eq] at hp
    rw [hp]

theorem uuid_unique_of_nodup {l : List NmConnection}
    (hn : (l.filterMap NmConnection.uuid).Nodup) {a b : NmConnection}
    {u : String} (ha : a ∈ l) (hb : b ∈ l) (hau : a.uuid = some u)
    (hbu : b.uuid = some u) : a = b := by
  induction l with
  | nil => cases ha
  | cons c rest ih =>
    have hrest : (rest.filterMap NmConnection.uuid).Nodup := by
      rw [List.filterMap_cons] at hn
      cases hc : c.uuid with
      | none => rw [hc] at hn; exact hn
      | some v => rw [hc] at hn; exact hn.of_cons
    rcases List.mem_cons.mp ha with rfl | ham
    · rcases List.mem_cons.mp hb with rfl | hbm
      · rfl
      · exfalso
        rw [List.filterMap_cons, hau] at hn
        have : u ∈ rest.filterMap NmConnection.uuid :=
          List.mem_filterMap.mpr ⟨b, hbm, hbu⟩
        exact (List.nodup_cons.mp hn).1 this
    · rcases List.mem_cons.mp hb with rfl | hbm
      · exfalso
        rw [List.filterMap_cons, hbu] at hn
        have : u ∈ rest.filterMap NmConnection.uuid :=
          List.mem_filterMap.mpr ⟨a, ham, hau⟩
        exact (List.nodup_cons.mp hn).1 this
      · exact ih hrest ham hbm

theorem find_activated_of_mem {act : List NmConnection}
    (hn : (act.filterMap NmConnection.uuid).Nodup) {cur : NmConnection}
    {u : String} (hc : cur ∈ act) (hu : cur.uuid = some u) :
    find_activated act u = some cur := by
  cases hf : find_activated act u with
  | none =>
    exfalso
    unfold find_activated at hf
    rw [List.find?_eq_none] at hf
    have := hf cur hc
    rw [hu] at this
    simp at this
  | some x =>
    obtain ⟨hxm, hxu⟩ := find_activated_eq_some hf
    rw [uuid_unique_of_nodup hn hxm hc hxu hu]

/-! ## Claim theorems -/

/-- C1: For every pair of a candidate profile in the to-activate set and
a currently active profile with the same uuid (profile identities being
unique), the pre-deactivation predicate adds the currently active
profile to the deactivate-first set iff at least one of the six checks
holds; every collected profile is a currently active one matched by uuid
to some candidate (so a candidate whose uuid matches no currently active
profile contributes nothing); and a pair identical in all six categories
never needs pre-deactivation, whatever its other properties. -/
theorem claim_c1_pre_deactivation_predicate
    (toAct act : List NmConnection)
    (hA : (act.filterMap NmConnection.uuid).Nodup)
    (hC : (toAct.filterMap NmConnection.uuid).Nodup) :
    (∀ cand ∈ toAct, ∀ cur ∈ act, ∀ u : String, cand.uuid = some u →
        cur.uuid = some u →
        (cur ∈ gen_nm_conn_need_to_deactivate_first toAct act ↔
          nm_conn_need_to_deactivate cand cur = true))
    ∧ (∀ x ∈ gen_nm_conn_need_to_deactivate_first toAct act,
        x ∈ act ∧ ∃ cand ∈ toAct, ∃ u : String,
          cand.uuid = some u ∧ x.uuid = some u)
    ∧ (∀ cand cur : NmConnection, sameSixCategories cand cur →
        nm_conn_need_to_deactivate cand cur = false) := by
  refine ⟨?_, ?_, ?_⟩
  · intro cand hcand cur hcur u hcu hcuru
    constructor
    · intro hmem
      obtain ⟨c2, hc2, u2, hu2, hf2, hd2⟩ :=
        (mem_gen_deactivate_first_iff toAct act cur).mp hmem
      obtain ⟨-, hcuru2⟩ := find_activated_eq_some hf2
      have hu2u : u2 = u := Option.some.inj (hcuru2.symm.trans hcuru)
      subst hu2u
      have hceq : c2 = cand := uuid_unique_of_nodup hC hc2 hcand hu2 hcu
      subst hceq
      exact hd2
    · intro hd
      exact (mem_gen_deactivate_first_iff toAct act cur).mpr
        ⟨cand, hcand, u, hcu, find_activated_of_mem hA hcur hcuru, hd⟩
  · intro x hx
    obtain ⟨c2, hc2, u, hu, hf, hd⟩ :=
      (mem_gen_deactivate_first_iff toAct act x).mp hx
    obtain ⟨hxm, hxu⟩ := find_activated_eq_some hf
    exact ⟨hxm, c2, hc2, u, hu, hxu⟩
  · intro cand cur hsame
    obtain ⟨h1, h2, h3, h4, h5, h6⟩ := hsame
    unfold nm_conn_need_to_deactivate is_route_removed is_vrf_table_id_changed
      is_vlan_changed is_vxlan_changed is_veth_peer_changed is_mptcp_flags_changed
    rw [h1, h2, h3, h4, h5, h6]
    simp [List.any_eq_false, List.elem_iff, List.contains]

/-- Witness for C1 at concrete inputs: a VLAN-only change puts the
active profile in the deactivate-first set, and a profile differing only
in an unrelated property needs no pre-deactivation. -/
theorem claim_c1_witness :
    wCur ∈ gen_nm_conn_need_to_deactivate_first [wCand] [wCur]
      ∧ nm_conn_need_to_deactivate wCand wSame = false := by
  have h := claim_c1_pre_deactivation_predicate [wCand] [wCur]
    (by decide) (by decide)
  constructor
  · exact (h.1 wCand (List.mem_singleton.mpr rfl) wCur
      (List.mem_singleton.mpr rfl) "uuid-1" rfl rfl).mpr (by decide)
  · exact h.2.2 wCand wSame ⟨rfl, rfl, rfl, rfl, rfl, rfl⟩

/-- C4: For a changed, merged-absent interface, the deletion cascade's
profile selection picks every existing profile whose interface name
matches when the interface type is unknown/unspecified (regardless of
the profile's type), and exactly the profiles matching the
(name, backend-mapped type) key otherwise. -/
theorem claim_c4_absent_iface_selection (all : List NmConnection)
    (iface : MergedIface) :
    (iface.iface_type = InterfaceType.unknown →
      ∃ conns, select_conns_for_absent_iface all iface = .ok (some conns)
        ∧ ∀ c : NmConnection,
            c ∈ conns ↔ c ∈ all ∧ c.iface_name = some iface.name)
    ∧ (∀ nt : String, iface.iface_type ≠ InterfaceType.unknown →
        iface_type_to_nm iface.iface_type = .ok nt →
        ∃ o, select_conns_for_absent_iface all iface = .ok o
          ∧ ∀ c : NmConnection,
              c ∈ o.getD [] ↔
                c ∈ all ∧ c.iface_name = some iface.name
                  ∧ c.iface_type = some nt) := by
  constructor
  · intro hunk
    refine ⟨all.filter (fun c => c.iface_name == some iface.name), ?_, ?_⟩
    · unfold select_conns_for_absent_iface
      rw [if_pos hunk]
    · intro c
      simp [List.mem_filter]
  · intro nt hne hnt
    refine ⟨nm_conns_name_type_index_get all iface.name nt, ?_, ?_⟩
    · unfold select_conns_for_absent_iface
      rw [if_neg hne, hnt]
    · intro c
      unfold nm_conns_name_type_index_get
      split
      · next hemp =>
        simp only [Option.getD_none, List.not_mem_nil, false_iff]
        rintro ⟨hca, hcn, hct⟩
        have hcm : c ∈ all.filter (fun c =>
            c.iface_name == some iface.name && c.iface_type == some nt) :=
          List.mem_filter.mpr ⟨hca, by simp [hcn, hct]⟩
        rw [List.isEmpty_iff.mp hemp] at hcm
        exact List.not_mem_nil c hcm
      · simp [List.mem_filter, and_assoc]

/-- Witness for C4 at a concrete input: an absent interface of unknown
type selects by name only. -/
theorem claim_c4_witness :
    ∃ conns, select_conns_for_absent_iface [wCand] wUnknownIface
        = .ok (some conns)
      ∧ ∀ c : NmConnection,
          c ∈ conns ↔ c ∈ [wCand] ∧ c.iface_name = some wUnknownIface.name :=
  (claim_c4_absent_iface_selection [wCand] wUnknownIface).1 rfl

/-- C5: every profile selected by the deletion cascade whose controller
reference is of the OVS-port kind contributes its controller's uuid to
the delete set, in addition to (when present) its own uuid. -/
theorem claim_c5_ovs_port_controller_deleted
    (all : List NmConnection) (m : MergedNetworkState)
    (entry : MergedIfaceEntry) (p : NmConnection) (conns : List NmConnection)
    (us : List String) (cu : String)
    (hentry : entry ∈ m.interfaces.all) (hch : entry.is_changed = true)
    (habs : entry.merged.is_absent = true)
    (hsel : select_conns_for_absent_iface all entry.merged = .ok (some conns))
    (hp : p ∈ conns)
    (hct : p.controller_type = some NM_SETTING_OVS_PORT_SETTING_NAME)
    (hcu : p.controller = some cu)
    (hok : delete_ifaces_uuids all m = .ok us) :
    cu ∈ us ∧ ∀ u : String, p.uuid = some u → u ∈ us := by
  obtain ⟨s, t, hst⟩ := List.append_of_mem hentry
  unfold delete_ifaces_uuids at hok
  rw [hst, List.foldl_append, List.foldl_cons] at hok
  cases hs : s.foldl (collect_step all) (Except.ok []) with
  | error err =>
    rw [hs] at hok
    rw [show collect_step all (.error err) entry = .error err from rfl] at hok
    rw [foldl_collect_step_error] at hok
    exact absurd hok (by simp)
  | ok acc0 =>
    rw [hs] at hok
    rw [show collect_step all (.ok acc0) entry = collect_iface all acc0 entry
      from rfl] at hok
    have hci : collect_iface all acc0 entry
        = .ok (conns.foldl collect_conn acc0) := by
      unfold collect_iface
      rw [if_pos (by rw [hch, habs]; rfl), hsel]
    rw [hci] at hok
    have hmem := mem_foldl_collect_conn_of_conn conns acc0 hp
    constructor
    · exact foldl_collect_step_mono all t hok (hmem.2 cu hct hcu)
    · intro u hu
      exact foldl_collect_step_mono all t hok (hmem.1 u hu)

/-- Witness for C5 at the OVS fixture: deleting the absent OVS internal
interface also marks its OVS-port controller's uuid. -/
theorem claim_c5_witness :
    "uuid-port" ∈ ["uuid-if", "uuid-port"]
      ∧ ∀ u : String, wOvsIface.uuid = some u
          → u ∈ ["uuid-if", "uuid-port"] :=
  claim_c5_ovs_port_controller_deleted wState.connections wAbsent
    wAbsentEntry wOvsIface [wOvsIface] ["uuid-if", "uuid-port"] "uuid-port"
    (List.mem_singleton.mpr rfl) rfl rfl rfl
    (List.mem_singleton.mpr rfl) rfl rfl rfl

theorem mem_orphan_uuids {all : List NmConnection} {deleted : List String}
    {c : NmConnection} {u : String} (hc : c ∈ all)
    (ht : c.iface_type = some NM_SETTING_OVS_PORT_SETTING_NAME)
    {ctrl : String} (hctrl : c.controller = some ctrl)
    (hdel : ctrl ∈ deleted) (hu : c.uuid = some u) :
    u ∈ orphan_uuids all deleted := by
  unfold orphan_uuids
  refine List.mem_filterMap.mpr ⟨c, hc, ?_⟩
  simp [ht, hctrl, hu, List.contains, List.elem_iff, hdel]

theorem orphan_uuids_controller {all : List NmConnection} {deleted : List String}
    {u : String} (h : u ∈ orphan_uuids all deleted) :
    ∃ c ∈ all, c.uuid = some u
      ∧ c.iface_type = some NM_SETTING_OVS_PORT_SETTING_NAME
      ∧ ∃ ctrl ∈ deleted, c.controller = some ctrl := by
  unfold orphan_uuids at h
  obtain ⟨c, hc, hfc⟩ := List.mem_filterMap.mp h
  by_cases ht : (c.iface_type == some NM_SETTING_OVS_PORT_SETTING_NAME) = true
  · rw [if_pos ht] at hfc
    cases hctrl : c.controller with
    | none => simp only [hctrl] at hfc; cases hfc
    | some ctrl =>
      simp only [hctrl] at hfc
      by_cases hin : deleted.contains ctrl = true
      · rw [if_pos hin] at hfc
        exact ⟨c, hc, hfc, beq_iff_eq.mp ht, ctrl, List.elem_iff.mp hin, hctrl⟩
      · rw [if_neg hin] at hfc
        cases hfc
  · rw [if_neg ht] at hfc
    cases hfc

/-- C3: when every profile carries a uuid, after the orphan sweep runs
no remaining OVS-port profile refers to a just-deleted controller uuid,
and running the sweep again on the resulting profile set selects nothing
further to delete. -/
theorem claim_c3_orphan_sweep_closure (st : NmApiState) (deleted : List String)
    (huuid : ∀ c ∈ st.connections, c.uuid.isSome = true) :
    (∀ c ∈ (delete_orphan_ports st deleted).2.connections,
        c.iface_type = some NM_SETTING_OVS_PORT_SETTING_NAME →
        ∀ ctrl : String, c.controller = some ctrl → ctrl ∉ deleted)
    ∧ orphan_uuids (delete_orphan_ports st deleted).2.connections deleted
        = [] := by
  have hconn : (delete_orphan_ports st deleted).2
      = (delete_conns st (orphan_uuids st.connections deleted)).1 := rfl
  have hpart1 : ∀ c ∈ (delete_orphan_ports st deleted).2.connections,
      c.iface_type = some NM_SETTING_OVS_PORT_SETTING_NAME →
      ∀ ctrl : String, c.controller = some ctrl → ctrl ∉ deleted := by
    intro c hc htype ctrl hctrl hdel
    rw [hconn, delete_conns_connections] at hc
    obtain ⟨hcm, hcf⟩ := List.mem_filter.mp hc
    obtain ⟨u, hu⟩ := Option.isSome_iff_exists.mp (huuid c hcm)
    have humem : u ∈ orphan_uuids st.connections deleted :=
      mem_orphan_uuids hcm htype hctrl hdel hu
    have hany : (orphan_uuids st.connections deleted).any
        (fun x => c.uuid == some x) = true :=
      List.any_eq_true.mpr ⟨u, humem, by simp [hu]⟩
    rw [hany] at hcf
    simp at hcf
  refine ⟨hpart1, ?_⟩
  unfold orphan_uuids
  rw [List.filterMap_eq_nil_iff]
  intro c hc
  by_cases ht : (c.iface_type == some NM_SETTING_OVS_PORT_SETTING_NAME) = true
  · rw [if_pos ht]
    cases hctrl : c.controller with
    | none => rfl
    | some ctrl =>
      by_cases hin : deleted.contains ctrl = true
      · exact absurd (List.elem_iff.mp hin)
          (hpart1 c hc (beq_iff_eq.mp ht) ctrl hctrl)
      · show (if deleted.contains ctrl = true then c.uuid else none) = none
        rw [if_neg hin]
  · rw [if_neg ht]

/-- Witness for C3 at a concrete state: sweeping after the bridge uuid
was deleted leaves no port profile referring to it, and a second sweep
selects nothing. -/
theorem claim_c3_witness :
    (∀ c ∈ (delete_orphan_ports wState ["uuid-br"]).2.connections,
        c.iface_type = some NM_SETTING_OVS_PORT_SETTING_NAME →
        ∀ ctrl : String, c.controller = some ctrl → ctrl ∉ ["uuid-br"])
    ∧ orphan_uuids (delete_orphan_ports wState ["uuid-br"]).2.connections
        ["uuid-br"] = [] :=
  claim_c3_orphan_sweep_closure wState ["uuid-br"] (by decide)

theorem device_delete_event (st : NmApiState) (o : String) :
    (device_delete st o).2.1 = NmEvent.deviceDelete o := by
  unfold device_delete
  split <;> rfl

theorem delete_remain_loop_events (devs : List NmDevice)
    (l : List MergedIface) (st : NmApiState) :
    ∀ e ∈ (delete_remain_loop devs l st).1, ∃ o, e = NmEvent.deviceDelete o := by
  induction l generalizing st with
  | nil =>
    intro e he
    cases he
  | cons i rest ih =>
    intro e he
    unfold delete_remain_loop at he
    by_cases hv : i.is_virtual = true
    · rw [if_pos hv] at he
      cases hty : iface_type_to_nm i.iface_type with
      | error err =>
        simp only [hty] at he
        cases he
      | ok nt =>
        simp only [hty] at he
        cases hidx : nm_devs_index_get devs i.name nt with
        | some dev =>
          simp only [hidx] at he
          rcases List.mem_cons.mp he with rfl | hrest
          · exact ⟨dev.obj_path, device_delete_event st dev.obj_path⟩
          · exact ih _ e hrest
        | none =>
          simp only [hidx] at he
          exact ih st e he
    · rw [if_neg hv] at he
      exact ih st e he

theorem delete_remain_trace (st : NmApiState) (m : MergedNetworkState) :
    (delete_remain_virtual_interface_as_desired st m).1
      = NmEvent.devicesGet ::
          (delete_remain_loop st.devices
            ((m.interfaces.kernel_ifaces.filter
              (fun e => e.is_changed && (e.merged.is_absent || e.merged.is_down))).map
              MergedIfaceEntry.merged) st).1 := rfl

theorem filterMap_sublist_of_imp {α β : Type} (f g : α → Option β) (l : List α)
    (h : ∀ a b, f a = some b → g a = some b) :
    (l.filterMap f).Sublist (l.filterMap g) := by
  induction l with
  | nil => simp
  | cons a rest ih =>
    rw [List.filterMap_cons, List.filterMap_cons]
    cases hfa : f a with
    | none =>
      cases hga : g a with
      | none => exact ih
      | some b => exact ih.trans (List.sublist_cons_self b _)
    | some b =>
      rw [h a b hfa]
      exact ih.cons₂ b

theorem orphan_uuids_sublist (all : List NmConnection) (d : List String) :
    (orphan_uuids all d).Sublist (all.filterMap NmConnection.uuid) := by
  unfold orphan_uuids
  apply filterMap_sublist_of_imp
  intro c u hcu
  by_cases ht : (c.iface_type == some NM_SETTING_OVS_PORT_SETTING_NAME) = true
  · rw [if_pos ht] at hcu
    cases hctrl : c.controller with
    | none =>
      simp only [hctrl] at hcu
      cases hcu
    | some ctrl =>
      simp only [hctrl] at hcu
      by_cases hin : d.contains ctrl = true
      · rw [if_pos hin] at hcu
        exact hcu
      · rw [if_neg hin] at hcu
        cases hcu
  · rw [if_neg ht] at hcu
    cases hcu

theorem orphan_uuids_disjoint (l : List NmConnection) (us : List String) :
    ∀ u ∈ orphan_uuids
        (l.filter (fun c => !(us.any (fun v => c.uuid == some v)))) us,
      u ∉ us := by
  intro u hu hin
  obtain ⟨c, hc, hcu, -, -⟩ := orphan_uuids_controller hu
  obtain ⟨hcm, hcf⟩ := List.mem_filter.mp hc
  have hany : us.any (fun v => c.uuid == some v) = true :=
    List.any_eq_true.mpr ⟨u, hin, by simp [hcu]⟩
  rw [hany] at hcf
  simp at hcf

theorem delete_ifaces_deleted_uuids (st : NmApiState) (m : MergedNetworkState)
    (us : List String) (hus : delete_ifaces_uuids st.connections m = .ok us) :
    (delete_ifaces st m).1.filterMap NmEvent.deletedUuid
      = us ++ orphan_uuids (delete_conns st us).1.connections us := by
  simp only [delete_ifaces, hus]
  rw [delete_remain_trace]
  have horph : (delete_orphan_ports (delete_conns st us).1 us).1
      = NmEvent.connectionsGet ::
          ((orphan_uuids (delete_conns st us).1.connections us).map
            NmEvent.connectionDelete) := by
    simp only [delete_orphan_ports]
    rw [delete_conns_trace]
  rw [horph, delete_conns_trace]
  simp only [List.filterMap_cons, List.filterMap_append, List.filterMap_map]
  have h1 : ∀ l : List String,
      l.filterMap (NmEvent.deletedUuid ∘ NmEvent.connectionDelete) = l := by
    intro l
    have hfn : (NmEvent.deletedUuid ∘ NmEvent.connectionDelete)
        = fun u : String => some u := by
      funext u
      rfl
    rw [hfn]
    exact List.filterMap_some l
  have h2 : (delete_remain_loop (delete_orphan_ports
      (delete_conns st us).1 us).2.devices
      ((m.interfaces.kernel_ifaces.filter
        (fun e => e.is_changed && (e.merged.is_absent || e.merged.is_down))).map
        MergedIfaceEntry.merged)
      (delete_orphan_ports (delete_conns st us).1 us).2).1.filterMap
      NmEvent.deletedUuid = [] := by
    rw [List.filterMap_eq_nil_iff]
    intro e he
    obtain ⟨o, rfl⟩ := delete_remain_loop_events _ _ _ e he
    rfl
  rw [h1, h1, h2]
  simp [NmEvent.deletedUuid]

/-- C8: within one run of the deletion cascade (including its orphan
sweep), when the backend's profiles have pairwise distinct uuids, every
uuid is passed to the backend's profile-deletion call at most once. -/
theorem claim_c8_delete_at_most_once (st : NmApiState) (m : MergedNetworkState)
    (h : (st.connections.filterMap NmConnection.uuid).Nodup) :
    ((delete_ifaces st m).1.filterMap NmEvent.deletedUuid).Nodup := by
  cases hus : delete_ifaces_uuids st.connections m with
  | error e =>
    simp only [delete_ifaces, hus]
    simp [NmEvent.deletedUuid]
  | ok us =>
    rw [delete_ifaces_deleted_uuids st m us hus]
    have husn : us.Nodup := delete_ifaces_uuids_nodup hus
    have hconn := delete_conns_connections st us
    have hsub1 : (orphan_uuids (delete_conns st us).1.connections us).Sublist
        ((delete_conns st us).1.connections.filterMap NmConnection.uuid) :=
      orphan_uuids_sublist _ us
    have hsub2 : ((delete_conns st us).1.connections.filterMap
        NmConnection.uuid).Sublist
        (st.connections.filterMap NmConnection.uuid) := by
      rw [hconn]
      exact (List.filter_sublist _).filterMap NmConnection.uuid
    have horphn : (orphan_uuids (delete_conns st us).1.connections us).Nodup :=
      (hsub1.trans hsub2).nodup h
    rw [List.nodup_append]
    refine ⟨husn, horphn, ?_⟩
    intro a ha hb
    rw [hconn] at hb
    exact orphan_uuids_disjoint st.connections us a hb ha

/-- Witness for C8 at the OVS fixture state. -/
theorem claim_c8_witness :
    ((delete_ifaces wState wAbsent).1.filterMap NmEvent.deletedUuid).Nodup :=
  claim_c8_delete_at_most_once wState wAbsent (by decide)

theorem delete_remain_loop_indep (devs : List NmDevice) (l : List MergedIface)
    (st1 st2 : NmApiState) :
    (delete_remain_loop devs l st1).1 = (delete_remain_loop devs l st2).1
      ∧ (delete_remain_loop devs l st1).2.isOk
          = (delete_remain_loop devs l st2).2.isOk := by
  induction l generalizing st1 st2 with
  | nil => exact ⟨rfl, rfl⟩
  | cons i rest ih =>
    unfold delete_remain_loop
    by_cases hv : i.is_virtual = true
    · rw [if_pos hv, if_pos hv]
      cases hty : iface_type_to_nm i.iface_type with
      | error err => simp [hty]
      | ok nt =>
        simp only [hty]
        cases hidx : nm_devs_index_get devs i.name nt with
        | some dev =>
          simp only [hidx]
          obtain ⟨h1, h2⟩ := ih (device_delete st1 dev.obj_path).1
            (device_delete st2 dev.obj_path).1
          constructor
          · show (device_delete st1 dev.obj_path).2.1
                :: (delete_remain_loop devs rest (device_delete st1 dev.obj_path).1).1
              = (device_delete st2 dev.obj_path).2.1
                :: (delete_remain_loop devs rest (device_delete st2 dev.obj_path).1).1
            rw [device_delete_event, device_delete_event, h1]
          · exact h2
        | none =>
          simp only [hidx]
          exact ih st1 st2
    · rw [if_neg hv, if_neg hv]
      exact ih st1 st2

/-- C9: the residual virtual-interface sweep behaves identically — same
backend calls issued, same success or failure — whatever set of devices
fails direct deletion: a device-delete failure is swallowed, the sweep
continues with the remaining interfaces, and such a failure never aborts
the apply sequence. -/
theorem claim_c9_device_delete_tolerated (st : NmApiState)
    (m : MergedNetworkState) (f : List String) :
    (delete_remain_virtual_interface_as_desired
        {st with failing_devices := f} m).1
      = (delete_remain_virtual_interface_as_desired
          {st with failing_devices := []} m).1
    ∧ (delete_remain_virtual_interface_as_desired
        {st with failing_devices := f} m).2.isOk
      = (delete_remain_virtual_interface_as_desired
          {st with failing_devices := []} m).2.isOk := by
  have h := delete_remain_loop_indep st.devices
    ((m.interfaces.kernel_ifaces.filter
      (fun e => e.is_changed && (e.merged.is_absent || e.merged.is_down))).map
      MergedIfaceEntry.merged)
    {st with failing_devices := f} {st with failing_devices := []}
  constructor
  · rw [delete_remain_trace, delete_remain_trace]
    rw [show ({st with failing_devices := f} : NmApiState).devices
      = st.devices from rfl]
    rw [show ({st with failing_devices := []} : NmApiState).devices
      = st.devices from rfl]
    rw [h.1]
  · exact h.2

theorem delete_remain_loop_connections (devs : List NmDevice)
    (l : List MergedIface) (st : NmApiState) {st2 : NmApiState}
    (h : (delete_remain_loop devs l st).2 = .ok st2) :
    st2.connections = st.connections := by
  induction l generalizing st with
  | nil =>
    cases h
    rfl
  | cons i rest ih =>
    unfold delete_remain_loop at h
    by_cases hv : i.is_virtual = true
    · rw [if_pos hv] at h
      cases hty : iface_type_to_nm i.iface_type with
      | error err =>
        simp only [hty] at h
        cases h
      | ok nt =>
        simp only [hty] at h
        cases hidx : nm_devs_index_get devs i.name nt with
        | some dev =>
          simp only [hidx] at h
          have hstep := ih (device_delete st dev.obj_path).1 h
          rw [hstep]
          show (device_delete st dev.obj_path).1.connections = st.connections
          unfold device_delete
          split <;> rfl
        | none =>
          simp only [hidx] at h
          exact ih st h
    · rw [if_neg hv] at h
      exact ih st h

theorem delete_remain_connections (st : NmApiState) (m : MergedNetworkState)
    {st2 : NmApiState}
    (h : (delete_remain_virtual_interface_as_desired st m).2 = .ok st2) :
    st2.connections = st.connections :=
  delete_remain_loop_connections _ _ _ h

/-- C10: a profile whose uuid is absent is silently skipped by every
id-collecting operation: the deletion cascade never deletes it, the
orphan sweep never deletes it, and as a candidate it contributes nothing
to the pre-deactivation predicate. -/
theorem claim_c10_uuid_none_skipped :
    (∀ (st : NmApiState) (m : MergedNetworkState) (st2 : NmApiState),
      (delete_ifaces st m).2 = .ok st2 →
      ∀ c ∈ st.connections, c.uuid = none → c ∈ st2.connections)
    ∧ (∀ (st : NmApiState) (deleted : List String),
      ∀ c ∈ st.connections, c.uuid = none →
        c ∈ (delete_orphan_ports st deleted).2.connections)
    ∧ (∀ (c : NmConnection) (toAct act : List NmConnection), c.uuid = none →
        gen_nm_conn_need_to_deactivate_first (c :: toAct) act
          = gen_nm_conn_need_to_deactivate_first toAct act) := by
  have hdc : ∀ (st : NmApiState) (us : List String) (c : NmConnection),
      c ∈ st.connections → c.uuid = none →
      c ∈ (delete_conns st us).1.connections := by
    intro st us c hc hu
    rw [delete_conns_connections]
    refine List.mem_filter.mpr ⟨hc, ?_⟩
    simp [hu]
  refine ⟨?_, ?_, ?_⟩
  · intro st m st2 hok c hc hu
    cases hus : delete_ifaces_uuids st.connections m with
    | error e =>
      simp only [delete_ifaces, hus] at hok
      cases hok
    | ok us =>
      simp only [delete_ifaces, hus] at hok
      have hconn2 := delete_remain_connections _ m hok
      rw [hconn2]
      exact hdc _ (orphan_uuids (delete_conns st us).1.connections us) c
        (hdc st us c hc hu) hu
  · intro st deleted c hc hu
    exact hdc st (orphan_uuids st.connections deleted) c hc hu
  · intro c toAct act hu
    unfold gen_nm_conn_need_to_deactivate_first
    rw [List.foldl_cons, deactivate_first_step_none act [] hu]

/-- Witness for C10 at concrete inputs: a uuid-less profile survives the
cascade and the orphan sweep, and as a candidate changes nothing. -/
theorem claim_c10_witness :
    (wNoUuid ∈ ((delete_ifaces { wState with connections := [wNoUuid] }
        wAbsent).2.toOption.getD wState).connections)
    ∧ wNoUuid ∈ (delete_orphan_ports
        { wState with connections := [wNoUuid] } ["uuid-br"]).2.connections
    ∧ gen_nm_conn_need_to_deactivate_first [wNoUuid] [wCur]
        = gen_nm_conn_need_to_deactivate_first [] [wCur] := by
  refine ⟨?_, ?_, ?_⟩
  · exact claim_c10_uuid_none_skipped.1
      { wState with connections := [wNoUuid] } wAbsent
      ((delete_ifaces { wState with connections := [wNoUuid] }
        wAbsent).2.toOption.getD wState)
      (by rfl) wNoUuid (List.mem_singleton.mpr rfl) rfl
  · exact claim_c10_uuid_none_skipped.2.1 _ ["uuid-br"] wNoUuid
      (List.mem_singleton.mpr rfl) rfl
  · exact claim_c10_uuid_none_skipped.2.2 wNoUuid [] [wCur] rfl

theorem delete_ifaces_phase1 (st : NmApiState) (m : MergedNetworkState) :
    ∀ e ∈ (delete_ifaces st m).1, e.isPhase1 = true := by
  cases hus : delete_ifaces_uuids st.connections m with
  | error err =>
    simp only [delete_ifaces, hus]
    intro e he
    rcases List.mem_singleton.mp he with rfl
    rfl
  | ok us =>
    simp only [delete_ifaces, hus]
    rw [delete_conns_trace, delete_remain_trace]
    rw [show (delete_orphan_ports (delete_conns st us).1 us).1
      = NmEvent.connectionsGet ::
          ((orphan_uuids (delete_conns st us).1.connections us).map
            NmEvent.connectionDelete) from by
      simp only [delete_orphan_ports]
      rw [delete_conns_trace]]
    rw [List.forall_mem_cons, List.forall_mem_append, List.forall_mem_append]
    refine ⟨rfl, ⟨?_, ?_⟩, ?_⟩
    · intro e he
      obtain ⟨u, -, rfl⟩ := List.mem_map.mp he
      rfl
    · rw [List.forall_mem_cons]
      refine ⟨rfl, ?_⟩
      intro e he
      obtain ⟨u, -, rfl⟩ := List.mem_map.mp he
      rfl
    · rw [List.forall_mem_cons]
      refine ⟨rfl, ?_⟩
      intro e he
      obtain ⟨o, rfl⟩ := delete_remain_loop_events _ _ _ e he
      rfl

theorem isPhase1_not_profileOp (e : NmEvent) (h : e.isPhase1 = true) :
    e.isProfileOp = false := by
  cases e <;> first | rfl | cases h

theorem isPhase1_not_dns (e : NmEvent) (h : e.isPhase1 = true) :
    e.isStoreGlobalDns = false ∧ e.isStoreDnsToIface = false := by
  cases e <;> first | exact ⟨rfl, rfl⟩ | cases h

theorem delete_step_events (st : NmApiState) (m : MergedNetworkState)
    {t1 : List NmEvent} {r1 : Except NmstateError NmApiState}
    (hd : (if m.memory_only then ([], Except.ok st) else delete_ifaces st m)
      = (t1, r1)) :
    ∀ x ∈ t1, x.isPhase1 = true := by
  by_cases hm : m.memory_only = true
  · rw [if_pos hm] at hd
    injection hd with h1 h2
    rw [← h1]
    intro x hx
    cases hx
  · rw [if_neg hm] at hd
    intro x hx
    have hx2 : x ∈ (delete_ifaces st m).1 := by
      rw [congrArg Prod.fst hd]
      exact hx
    exact delete_ifaces_phase1 st m x hx2

theorem apply_phase_hostname_events (st : NmApiState) (m : MergedNetworkState) :
    ∀ e ∈ (apply_phase_hostname st m).1, ∃ s, e = NmEvent.hostnameSet s := by
  intro e he
  unfold apply_phase_hostname at he
  cases hh : m.hostname_desired_config with
  | none =>
    simp only [hh] at he
    cases he
  | some h =>
    simp only [hh] at he
    by_cases hm : m.memory_only = true
    · rw [if_pos hm] at he
      cases he
    · rw [if_neg hm] at he
      rcases List.mem_singleton.mp he with rfl
      exact ⟨h, rfl⟩

theorem apply_phase_hostname_memory (st : NmApiState) (m : MergedNetworkState)
    (hm : m.memory_only = true) : (apply_phase_hostname st m).1 = [] := by
  unfold apply_phase_hostname
  cases hh : m.hostname_desired_config with
  | none => rfl
  | some h =>
    show (if m.memory_only = true then ([], st)
      else hostname_set st h).1 = []
    rw [if_pos hm]

theorem apply_phase_dns_events (collab : Collab) (st : NmApiState)
    (m : MergedNetworkState) :
    ∀ e ∈ (apply_phase_dns collab st m).1,
      e = NmEvent.purgeGlobalDns ∨ e = NmEvent.storeDnsToIface
        ∨ ∃ sv se, e = NmEvent.storeGlobalDns sv se := by
  intro e he
  unfold apply_phase_dns at he
  cases hd : collab.store_dns_config_to_iface m with
  | mk mC oe =>
    simp only [hd] at he
    have hpurge : ∀ x ∈ (if m.dns.is_changed
        || !(collab.cur_dns_ifaces_still_valid_for_dns m.interfaces) then
          ([NmEvent.purgeGlobalDns], purge_global_dns_config st)
        else ([], st)).1,
        x = NmEvent.purgeGlobalDns := by
      split
      · intro x hx
        rcases List.mem_singleton.mp hx with rfl
        rfl
      · intro x hx
        cases hx
    cases oe with
    | none =>
      rcases List.mem_append.mp he with hp | ht
      · exact Or.inl (hpurge e hp)
      · rcases List.mem_singleton.mp ht with rfl
        exact Or.inr (Or.inl rfl)
    | some er =>
      rcases List.mem_append.mp he with hp | ht
      · exact Or.inl (hpurge e hp)
      · rcases List.mem_cons.mp ht with rfl | ht2
        · exact Or.inr (Or.inl rfl)
        · rcases List.mem_singleton.mp ht2 with rfl
          exact Or.inr (Or.inr ⟨mC.dns.servers, mC.dns.searches, rfl⟩)

theorem nm_apply_pre_no_profileOp (collab : Collab) (st : NmApiState)
    (m : MergedNetworkState) (cp : String) (t : Nat) :
    ∀ e ∈ (nm_apply_pre collab st m cp t).1, e.isProfileOp = false := by
  intro e he
  unfold nm_apply_pre at he
  split at he
  next t1 e1 hd =>
    rcases List.mem_append.mp he with h0 | h1
    · rcases List.mem_cons.mp h0 with rfl | h0b
      · rfl
      · rcases List.mem_singleton.mp h0b with rfl
        rfl
    · exact isPhase1_not_profileOp e (delete_step_events st m hd e h1)
  next t1 st1 hd =>
    split at he
    next er hr =>
      rcases List.mem_append.mp he with h01 | htg
      · rcases List.mem_append.mp h01 with h0 | h2
        · rcases List.mem_append.mp h0 with ha | h1
          · rcases List.mem_cons.mp ha with rfl | hb
            · rfl
            · rcases List.mem_singleton.mp hb with rfl
              rfl
          · exact isPhase1_not_profileOp e (delete_step_events st m hd e h1)
        · obtain ⟨s0, rfl⟩ := apply_phase_hostname_events st1 m e h2
          rfl
      · rcases List.mem_cons.mp htg with rfl | hb
        · rfl
        · rcases List.mem_singleton.mp hb with rfl
          rfl
    next mA hr =>
      split at he
      next er hrr =>
        rcases List.mem_append.mp he with h01 | htg
        · rcases List.mem_append.mp h01 with h0 | h2
          · rcases List.mem_append.mp h0 with ha | h1
            · rcases List.mem_cons.mp ha with rfl | hb
              · rfl
              · rcases List.mem_singleton.mp hb with rfl
                rfl
            · exact isPhase1_not_profileOp e (delete_step_events st m hd e h1)
          · obtain ⟨s0, rfl⟩ := apply_phase_hostname_events st1 m e h2
            rfl
        · rcases List.mem_cons.mp htg with rfl | hb
          · rfl
          · rcases List.mem_singleton.mp hb with rfl
            rfl
      next mB hrr =>
        rcases List.mem_append.mp he with h01 | hdns
        · rcases List.mem_append.mp h01 with h02 | htg
          · rcases List.mem_append.mp h02 with h0 | h2
            · rcases List.mem_append.mp h0 with ha | h1
              · rcases List.mem_cons.mp ha with rfl | hb
                · rfl
                · rcases List.mem_singleton.mp hb with rfl
                  rfl
              · exact isPhase1_not_profileOp e (delete_step_events st m hd e h1)
            · obtain ⟨s0, rfl⟩ := apply_phase_hostname_events st1 m e h2
              rfl
          · rcases List.mem_cons.mp htg with rfl | hb
            · rfl
            · rcases List.mem_singleton.mp hb with rfl
              rfl
        · rcases apply_phase_dns_events collab (apply_phase_hostname st1 m).2 mB e hdns with rfl | rfl | ⟨sv, se, rfl⟩ <;> rfl

theorem delete_exist_profiles_events (st : NmApiState)
    (exist toStore : List NmConnection) :
    ∀ e ∈ (delete_exist_profiles st exist toStore).1,
      e.isConnectionDelete = true := by
  intro e he
  simp only [delete_exist_profiles] at he
  rw [delete_conns_trace] at he
  obtain ⟨u, -, rfl⟩ := List.mem_map.mp he
  rfl

theorem delete_orphan_ovs_ports_events (st : NmApiState)
    (ifaces : MergedInterfaces) (exist toActivate : List NmConnection) :
    ∀ e ∈ (delete_orphan_ovs_ports st ifaces exist toActivate).1,
      e.isConnectionDelete = true := by
  intro e he
  simp only [delete_orphan_ovs_ports] at he
  rw [delete_conns_trace] at he
  obtain ⟨u, -, rfl⟩ := List.mem_map.mp he
  rfl

theorem nm_apply_post_structure (st1 : NmApiState) (m1 : MergedNetworkState)
    (exist_nm_conns : List NmConnection) (nm_acs : List NmActiveConnection)
    (prepped : PerparedNmConnections) :
    ∃ del, (nm_apply_post st1 m1 exist_nm_conns nm_acs prepped).1
      = (gen_nm_conn_need_to_deactivate_first prepped.to_activate
          (activated_nm_conns_of exist_nm_conns nm_acs)).map NmEvent.deactivate
        ++ prepped.to_store.map (fun c => NmEvent.save c m1.memory_only)
        ++ del
        ++ prepped.to_activate.map NmEvent.activate
        ++ prepped.to_deactivate.map NmEvent.deactivate
      ∧ (∀ e ∈ del, e.isConnectionDelete = true)
      ∧ (m1.memory_only = true → del = []) := by
  by_cases hm : m1.memory_only = true
  · refine ⟨[], ?_, ?_, fun _ => rfl⟩
    · simp only [nm_apply_post, if_pos hm]
      rfl
    · intro e he
      cases he
  · refine ⟨(delete_exist_profiles (save_nm_profiles (deactivate_nm_profiles st1
        (gen_nm_conn_need_to_deactivate_first prepped.to_activate
          (activated_nm_conns_of exist_nm_conns nm_acs))).2 prepped.to_store
        m1.memory_only).2 exist_nm_conns prepped.to_store).1
      ++ (delete_orphan_ovs_ports (delete_exist_profiles (save_nm_profiles
          (deactivate_nm_profiles st1 (gen_nm_conn_need_to_deactivate_first
            prepped.to_activate (activated_nm_conns_of exist_nm_conns
            nm_acs))).2 prepped.to_store m1.memory_only).2 exist_nm_conns
          prepped.to_store).2 m1.interfaces exist_nm_conns
          prepped.to_activate).1, ?_, ?_, ?_⟩
    · simp only [nm_apply_post, if_neg hm]
      rfl
    · intro e he
      rcases List.mem_append.mp he with h1 | h2
      · exact delete_exist_profiles_events _ _ _ e h1
      · exact delete_orphan_ovs_ports_events _ _ _ _ e h2
    · intro hmm
      exact absurd hmm hm

theorem nm_apply_trace (collab : Collab) (st : NmApiState)
    (m : MergedNetworkState) (cp : String) (t : Nat) :
    ∃ suffix, (nm_apply collab st m cp t).1
        = (nm_apply_pre collab st m cp t).1 ++ suffix
      ∧ ∀ e ∈ suffix, e.isProfileOp = true ∨ e.isConnectionDelete = true := by
  cases hpre : nm_apply_pre collab st m cp t with
  | mk t1 r =>
    cases r with
    | error er =>
      refine ⟨[], by simp [nm_apply, hpre], ?_⟩
      intro e he
      cases he
    | ok tup =>
      obtain ⟨st1, m1, exist, acs, mp⟩ := tup
      cases hperp : collab.perpare_nm_conns m1 exist acs mp false with
      | error er =>
        refine ⟨[], by simp [nm_apply, hpre, hperp], ?_⟩
        intro e he
        cases he
      | ok prepped =>
        refine ⟨(nm_apply_post st1 m1 exist acs prepped).1,
          by simp [nm_apply, hpre, hperp], ?_⟩
        obtain ⟨del, heq, hdel, -⟩ :=
          nm_apply_post_structure st1 m1 exist acs prepped
        rw [heq]
        intro e he
        rcases List.mem_append.mp he with he1 | h5
        rotate_left
        · obtain ⟨c, -, rfl⟩ := List.mem_map.mp h5
          exact Or.inl rfl
        rcases List.mem_append.mp he1 with he2 | h4
        rotate_left
        · obtain ⟨c, -, rfl⟩ := List.mem_map.mp h4
          exact Or.inl rfl
        rcases List.mem_append.mp he2 with he3 | h3
        rotate_left
        · exact Or.inr (hdel e h3)
        rcases List.mem_append.mp he3 with h1 | h2
        · obtain ⟨c, -, rfl⟩ := List.mem_map.mp h1
          exact Or.inl rfl
        · obtain ⟨c, -, rfl⟩ := List.mem_map.mp h2
          exact Or.inl rfl

/-- C6: in every successful apply the backend calls are ordered: the
prefix before profile-level operations contains no save, activate or
deactivate call; then the deactivate-first set is deactivated, then the
to-store profiles are saved, then the stale-profile and orphan-port
deletions run (only profile deletions there), then the to-activate
profiles are activated, and the to-deactivate profiles are deactivated
last. -/
theorem claim_c6_apply_ordering (collab : Collab) (st : NmApiState)
    (m : MergedNetworkState) (cp : String) (t : Nat) (stF : NmApiState)
    (h : (nm_apply collab st m cp t).2 = .ok stF) :
    ∃ (p del : List NmEvent)
      (deactFirst toStore toAct toDeact : List NmConnection) (mo : Bool),
      (nm_apply collab st m cp t).1
        = p ++ deactFirst.map NmEvent.deactivate
          ++ toStore.map (fun c => NmEvent.save c mo)
          ++ del ++ toAct.map NmEvent.activate
          ++ toDeact.map NmEvent.deactivate
      ∧ (∀ e ∈ p, e.isProfileOp = false)
      ∧ (∀ e ∈ del, e.isConnectionDelete = true) := by
  cases hpre : nm_apply_pre collab st m cp t with
  | mk t1 r =>
    cases r with
    | error er =>
      rw [show (nm_apply collab st m cp t).2 = .error er from by
        simp [nm_apply, hpre]] at h
      cases h
    | ok tup =>
      obtain ⟨st1, m1, exist, acs, mp⟩ := tup
      cases hperp : collab.perpare_nm_conns m1 exist acs mp false with
      | error er =>
        rw [show (nm_apply collab st m cp t).2 = .error er from by
          simp [nm_apply, hpre, hperp]] at h
        cases h
      | ok prepped =>
        obtain ⟨del, heq, hdel, -⟩ :=
          nm_apply_post_structure st1 m1 exist acs prepped
        refine ⟨t1, del,
          gen_nm_conn_need_to_deactivate_first prepped.to_activate
            (activated_nm_conns_of exist acs),
          prepped.to_store, prepped.to_activate, prepped.to_deactivate,
          m1.memory_only, ?_, ?_, hdel⟩
        · rw [show (nm_apply collab st m cp t).1
            = t1 ++ (nm_apply_post st1 m1 exist acs prepped).1 from by
            simp [nm_apply, hpre, hperp]]
          rw [heq]
          simp [List.append_assoc]
        · intro e he
          exact nm_apply_pre_no_profileOp collab st m cp t e
            (by rw [hpre]; exact he)

/-- Witness for C6: a concrete successful apply over the OVS fixture. -/
theorem claim_c6_witness :
    ∃ (p del : List NmEvent)
      (deactFirst toStore toAct toDeact : List NmConnection) (mo : Bool),
      (nm_apply wCollab wState wAbsent "cp" 30).1
        = p ++ deactFirst.map NmEvent.deactivate
          ++ toStore.map (fun c => NmEvent.save c mo)
          ++ del ++ toAct.map NmEvent.activate
          ++ toDeact.map NmEvent.deactivate
      ∧ (∀ e ∈ p, e.isProfileOp = false)
      ∧ (∀ e ∈ del, e.isConnectionDelete = true) :=
  claim_c6_apply_ordering wCollab wState wAbsent "cp" 30
    ((nm_apply wCollab wState wAbsent "cp" 30).2.toOption.getD wState)
    (by rfl)

theorem apply_phase_dns_merged (collab : Collab) (st : NmApiState)
    (m : MergedNetworkState)
    (h3 : ∀ x, ((collab.store_dns_config_to_iface x).1).memory_only
      = x.memory_only) :
    ((apply_phase_dns collab st m).2.2).memory_only = m.memory_only := by
  unfold apply_phase_dns
  cases hd : collab.store_dns_config_to_iface m with
  | mk mC oe =>
    have hmc : mC.memory_only = m.memory_only := by
      have := h3 m
      rw [hd] at this
      exact this
    cases oe <;> simp only [hd] <;> exact hmc

theorem nm_apply_pre_memory_only (collab : Collab) (st : NmApiState)
    (m : MergedNetworkState) (cp : String) (t : Nat) (st1x : NmApiState)
    (m1 : MergedNetworkState) (exist : List NmConnection)
    (acs : List NmActiveConnection) (mp : Bool)
    (hm : m.memory_only = true)
    (h1 : ∀ x y, collab.store_route_config x = Except.ok y →
      y.memory_only = x.memory_only)
    (h2 : ∀ x y, collab.store_route_rule_config x = Except.ok y →
      y.memory_only = x.memory_only)
    (h3 : ∀ x, ((collab.store_dns_config_to_iface x).1).memory_only
      = x.memory_only)
    (hpre : (nm_apply_pre collab st m cp t).2 = .ok (st1x, m1, exist, acs, mp)) :
    m1.memory_only = true := by
  unfold nm_apply_pre at hpre
  split at hpre
  next t1 e1 hd =>
    cases hpre
  next t1 st1 hd =>
    split at hpre
    next er hr =>
      cases hpre
    next mA hr =>
      split at hpre
      next er hrr =>
        cases hpre
      next mB hrr =>
        injection hpre with hpre2
        injection hpre2 with ha hb
        injection hb with hm1 hrest
        rw [← hm1]
        have hdns := apply_phase_dns_merged collab
          (apply_phase_hostname st1 m).2 mB h3
        rw [hdns, h2 mA mB hrr, h1 m mA hr]
        exact hm

theorem dns_event_memory_safe (collab : Collab) (st : NmApiState)
    (m : MergedNetworkState) :
    ∀ e ∈ (apply_phase_dns collab st m).1, e.memoryOnlySafe = true := by
  intro e he
  rcases apply_phase_dns_events collab st m e he with rfl | rfl | ⟨sv, se, rfl⟩
    <;> rfl

theorem delete_step_memory_empty (st : NmApiState) (m : MergedNetworkState)
    {t1 : List NmEvent} {r1 : Except NmstateError NmApiState}
    (hm : m.memory_only = true)
    (hd : (if m.memory_only then ([], Except.ok st) else delete_ifaces st m)
      = (t1, r1)) : t1 = [] := by
  rw [if_pos hm] at hd
  injection hd with ha hb
  exact ha.symm

theorem nm_apply_pre_memory_safe (collab : Collab) (st : NmApiState)
    (m : MergedNetworkState) (cp : String) (t : Nat)
    (hm : m.memory_only = true) :
    ∀ e ∈ (nm_apply_pre collab st m cp t).1, e.memoryOnlySafe = true := by
  intro e he
  unfold nm_apply_pre at he
  split at he
  next t1 e1 hd =>
    rw [delete_step_memory_empty st m hm hd] at he
    rcases List.mem_append.mp he with h0 | h1
    · rcases List.mem_cons.mp h0 with rfl | h0b
      · rfl
      · rcases List.mem_singleton.mp h0b with rfl
        rfl
    · cases h1
  next t1 st1 hd =>
    rw [delete_step_memory_empty st m hm hd] at he
    split at he
    next er hr =>
      rcases List.mem_append.mp he with h01 | htg
      · rcases List.mem_append.mp h01 with h0 | h2
        · rcases List.mem_append.mp h0 with ha | h1
          · rcases List.mem_cons.mp ha with rfl | hb
            · rfl
            · rcases List.mem_singleton.mp hb with rfl
              rfl
          · cases h1
        · have h2b : e ∈ (apply_phase_hostname st1 m).1 := h2
          rw [apply_phase_hostname_memory st1 m hm] at h2b
          cases h2b
      · rcases List.mem_cons.mp htg with rfl | hb
        · rfl
        · rcases List.mem_singleton.mp hb with rfl
          rfl
    next mA hr =>
      split at he
      next er hrr =>
        rcases List.mem_append.mp he with h01 | htg
        · rcases List.mem_append.mp h01 with h0 | h2
          · rcases List.mem_append.mp h0 with ha | h1
            · rcases List.mem_cons.mp ha with rfl | hb
              · rfl
              · rcases List.mem_singleton.mp hb with rfl
                rfl
            · cases h1
          · have h2b : e ∈ (apply_phase_hostname st1 m).1 := h2
            rw [apply_phase_hostname_memory st1 m hm] at h2b
            cases h2b
        · rcases List.mem_cons.mp htg with rfl | hb
          · rfl
          · rcases List.mem_singleton.mp hb with rfl
            rfl
      next mB hrr =>
        rcases List.mem_append.mp he with h01 | hdns
        · rcases List.mem_append.mp h01 with h02 | htg
          · rcases List.mem_append.mp h02 with h0 | h2
            · rcases List.mem_append.mp h0 with ha | h1
              · rcases List.mem_cons.mp ha with rfl | hb
                · rfl
                · rcases List.mem_singleton.mp hb with rfl
                  rfl
              · cases h1
            · have h2b : e ∈ (apply_phase_hostname st1 m).1 := h2
              rw [apply_phase_hostname_memory st1 m hm] at h2b
              cases h2b
          · rcases List.mem_cons.mp htg with rfl | hb
            · rfl
            · rcases List.mem_singleton.mp hb with rfl
              rfl
        · exact dns_event_memory_safe collab (apply_phase_hostname st1 m).2
            mB e hdns

/-- C7: in memory-only mode no profile-deletion call, no stale or
orphan sweep deletion, no device deletion and no hostname-set call is
ever issued, and every profile save is non-persistent — assuming the
route, route-rule and DNS collaborators preserve the memory-only flag of
the merged state they mutate. -/
theorem claim_c7_memory_only (collab : Collab) (st : NmApiState)
    (m : MergedNetworkState) (cp : String) (t : Nat)
    (hm : m.memory_only = true)
    (h1 : ∀ x y, collab.store_route_config x = Except.ok y →
      y.memory_only = x.memory_only)
    (h2 : ∀ x y, collab.store_route_rule_config x = Except.ok y →
      y.memory_only = x.memory_only)
    (h3 : ∀ x, ((collab.store_dns_config_to_iface x).1).memory_only
      = x.memory_only) :
    ∀ e ∈ (nm_apply collab st m cp t).1, e.memoryOnlySafe = true := by
  intro e he
  cases hpre : nm_apply_pre collab st m cp t with
  | mk t1 r =>
    cases r with
    | error er =>
      rw [show (nm_apply collab st m cp t).1 = t1 from by
        simp [nm_apply, hpre]] at he
      exact nm_apply_pre_memory_safe collab st m cp t hm e
        (by rw [hpre]; exact he)
    | ok tup =>
      obtain ⟨st1, m1, exist, acs, mp⟩ := tup
      have hm1 : m1.memory_only = true :=
        nm_apply_pre_memory_only collab st m cp t st1 m1 exist acs mp hm
          h1 h2 h3 (by rw [hpre])
      cases hperp : collab.perpare_nm_conns m1 exist acs mp false with
      | error er =>
        rw [show (nm_apply collab st m cp t).1 = t1 from by
          simp [nm_apply, hpre, hperp]] at he
        exact nm_apply_pre_memory_safe collab st m cp t hm e
          (by rw [hpre]; exact he)
      | ok prepped =>
        rw [show (nm_apply collab st m cp t).1
          = t1 ++ (nm_apply_post st1 m1 exist acs prepped).1 from by
          simp [nm_apply, hpre, hperp]] at he
        rcases List.mem_append.mp he with h1e | h2e
        · exact nm_apply_pre_memory_safe collab st m cp t hm e
            (by rw [hpre]; exact h1e)
        · obtain ⟨del, heq, -, hdelmem⟩ :=
            nm_apply_post_structure st1 m1 exist acs prepped
          rw [heq, hdelmem hm1] at h2e
          rcases List.mem_append.mp h2e with he1 | h5
          rotate_left
          · obtain ⟨c, -, rfl⟩ := List.mem_map.mp h5
            rfl
          rcases List.mem_append.mp he1 with he2 | h4
          rotate_left
          · obtain ⟨c, -, rfl⟩ := List.mem_map.mp h4
            rfl
          rcases List.mem_append.mp he2 with he3 | h3e
          rotate_left
          · cases h3e
          rcases List.mem_append.mp he3 with ha | hb
          · obtain ⟨c, -, rfl⟩ := List.mem_map.mp ha
            rfl
          · obtain ⟨c, -, rfl⟩ := List.mem_map.mp hb
            exact hm1

/-- Witness for C7: in a concrete memory-only apply the save call that
does occur is non-persistent (its memory-only flag is set). -/
theorem claim_c7_witness :
    (NmEvent.save wCand true).memoryOnlySafe = true :=
  claim_c7_memory_only wCollab wState wMemState "cp" 30 rfl
    (fun x y h => by injection h with hh; rw [← hh])
    (fun x y h => by injection h with hh; rw [← hh])
    (fun x => rfl)
    (NmEvent.save wCand true) (by decide)

theorem apply_phase_dns_err_counts (collab : Collab) (st : NmApiState)
    (m : MergedNetworkState) (mC : MergedNetworkState) (er : NmstateError)
    (hdns : collab.store_dns_config_to_iface m = (mC, some er)) :
    (apply_phase_dns collab st m).1.filter NmEvent.isStoreGlobalDns
        = [NmEvent.storeGlobalDns mC.dns.servers mC.dns.searches]
      ∧ (apply_phase_dns collab st m).1.countP NmEvent.isStoreDnsToIface
          = 1 := by
  simp only [apply_phase_dns, hdns]
  split <;> exact ⟨rfl, rfl⟩

theorem nm_apply_pre_dns_counts (collab : Collab) (st : NmApiState)
    (m : MergedNetworkState) (cp : String) (t : Nat)
    (mA mB mC : MergedNetworkState) (er : NmstateError)
    (hdel : m.memory_only = true
      ∨ ∃ stx, (delete_ifaces st m).2 = Except.ok stx)
    (hr : collab.store_route_config m = .ok mA)
    (hrr : collab.store_route_rule_config mA = .ok mB)
    (hdns : collab.store_dns_config_to_iface mB = (mC, some er)) :
    (nm_apply_pre collab st m cp t).1.filter NmEvent.isStoreGlobalDns
        = [NmEvent.storeGlobalDns mC.dns.servers mC.dns.searches]
      ∧ (nm_apply_pre collab st m cp t).1.countP NmEvent.isStoreDnsToIface = 1
      ∧ (nm_apply_pre collab st m cp t).2.isOk = true := by
  unfold nm_apply_pre
  split
  next t1 e1 hd =>
    exfalso
    rcases hdel with hm | ⟨stx, hds⟩
    · rw [if_pos hm] at hd
      injection hd with ha hb
      cases hb
    · by_cases hm2 : m.memory_only = true
      · rw [if_pos hm2] at hd
        injection hd with ha hb
        cases hb
      · rw [if_neg hm2] at hd
        rw [congrArg Prod.snd hd] at hds
        obtain ⟨stx2, hc⟩ := hds
  next t1 st1 hd =>
    have ht1 : ∀ x ∈ t1, x.isPhase1 = true := delete_step_events st m hd
    split
    next er2 hr2 =>
      rw [hr] at hr2
      cases hr2
    next mA2 hr2 =>
      rw [hr] at hr2
      injection hr2 with hA
      subst hA
      split
      next er2 hrr2 =>
        rw [hrr] at hrr2
        cases hrr2
      next mB2 hrr2 =>
        rw [hrr] at hrr2
        injection hrr2 with hB
        subst hB
        have hc := apply_phase_dns_err_counts collab
          (apply_phase_hostname st1 m).2 mB mC er hdns
        have hf1 : t1.filter NmEvent.isStoreGlobalDns = [] := by
          rw [List.filter_eq_nil_iff]
          intro a ha
          rw [(isPhase1_not_dns a (ht1 a ha)).1]
          exact Bool.false_ne_true
        have hf2 : ((apply_phase_hostname st1 m).1).filter
            NmEvent.isStoreGlobalDns = [] := by
          rw [List.filter_eq_nil_iff]
          intro a ha
          obtain ⟨s, rfl⟩ := apply_phase_hostname_events st1 m a ha
          exact Bool.false_ne_true
        have hg1 : t1.countP NmEvent.isStoreDnsToIface = 0 := by
          rw [List.countP_eq_zero]
          intro a ha
          rw [(isPhase1_not_dns a (ht1 a ha)).2]
          exact Bool.false_ne_true
        have hg2 : ((apply_phase_hostname st1 m).1).countP
            NmEvent.isStoreDnsToIface = 0 := by
          rw [List.countP_eq_zero]
          intro a ha
          obtain ⟨s, rfl⟩ := apply_phase_hostname_events st1 m a ha
          exact Bool.false_ne_true
        refine ⟨?_, ?_, rfl⟩
        · simp only [List.filter_append, hf1, hf2, hc.1]
          rfl
        · simp only [List.countP_append, hg1, hg2, hc.2]
          rfl

theorem profileOp_not_dns (e : NmEvent)
    (h : e.isProfileOp = true ∨ e.isConnectionDelete = true) :
    e.isStoreGlobalDns = false ∧ e.isStoreDnsToIface = false := by
  cases e <;> simp [NmEvent.isProfileOp, NmEvent.isConnectionDelete,
    NmEvent.isStoreGlobalDns, NmEvent.isStoreDnsToIface] at h ⊢

/-- C2 counterexample: the per-interface DNS collaborator fails with a
transport error (not the modeling-limitation error), yet the apply does
not propagate it as fatal — it succeeds and issues the global-DNS
fallback call. -/
theorem claim_c2_counterexample :
    (nm_apply wDnsFailCollab wState wMemState "cp" 30).2.isOk = true
      ∧ NmEvent.storeGlobalDns ["8.8.8.8"] ["x.example"]
          ∈ (nm_apply wDnsFailCollab wState wMemState "cp" 30).1 := by
  constructor
  · rfl
  · decide

/-- C2 (amended): any error from per-interface DNS storage — whatever
its kind — triggers the global-DNS fallback; the fallback is then called
exactly once, with the merged state's full server and search-domain
lists, and per-interface DNS storage is attempted exactly once, never
re-attempted. -/
theorem claim_c2_dns_fallback_any_error (collab : Collab) (st : NmApiState)
    (m : MergedNetworkState) (cp : String) (t : Nat)
    (mA mB mC : MergedNetworkState) (er : NmstateError)
    (hdel : m.memory_only = true
      ∨ ∃ stx, (delete_ifaces st m).2 = Except.ok stx)
    (hr : collab.store_route_config m = .ok mA)
    (hrr : collab.store_route_rule_config mA = .ok mB)
    (hdns : collab.store_dns_config_to_iface mB = (mC, some er)) :
    (nm_apply collab st m cp t).1.filter NmEvent.isStoreGlobalDns
        = [NmEvent.storeGlobalDns mC.dns.servers mC.dns.searches]
      ∧ (nm_apply collab st m cp t).1.countP NmEvent.isStoreDnsToIface
          = 1 := by
  obtain ⟨suffix, heq, hsuf⟩ := nm_apply_trace collab st m cp t
  obtain ⟨hc1, hc2, -⟩ := nm_apply_pre_dns_counts collab st m cp t mA mB mC er
    hdel hr hrr hdns
  have hs1 : suffix.filter NmEvent.isStoreGlobalDns = [] := by
    rw [List.filter_eq_nil_iff]
    intro a ha
    rw [(profileOp_not_dns a (hsuf a ha)).1]
    exact Bool.false_ne_true
  have hs2 : suffix.countP NmEvent.isStoreDnsToIface = 0 := by
    rw [List.countP_eq_zero]
    intro a ha
    rw [(profileOp_not_dns a (hsuf a ha)).2]
    exact Bool.false_ne_true
  rw [heq]
  constructor
  · rw [List.filter_append, hc1, hs1, List.append_nil]
  · rw [List.countP_append, hc2, hs2]

/-- Witness for the amended C2 at concrete inputs: a transport-failing
DNS collaborator makes the apply call the global DNS API exactly once
with the full lists, with per-interface storage attempted once. -/
theorem claim_c2_witness :
    (nm_apply wDnsFailCollab wState wMemState "cp" 30).1.filter
        NmEvent.isStoreGlobalDns
      = [NmEvent.storeGlobalDns wMemState.dns.servers wMemState.dns.searches]
    ∧ (nm_apply wDnsFailCollab wState wMemState "cp" 30).1.countP
        NmEvent.isStoreDnsToIface = 1 :=
  claim_c2_dns_fallback_any_error wDnsFailCollab wState wMemState "cp" 30
    wMemState wMemState wMemState (.transport "dbus failure")
    (Or.inl rfl) rfl rfl rfl
